import Mathlib

/-!
# MagiTrickle CLI: command router and error translator

A shallow embedding of the command-line client under `src/cli`:

* `helpers.go`   : `parseAPIError`
* `http_unix.go` : `doUnixRequest`, `doUnixJSON`
* `group.go`, `rule.go`, `system.go` : the command bodies (`RunE`) and the flag
  registration done in `init`.

Library behaviour the commands rely on (the JSON codec, the HTTP client, the file
system) is not part of the repository and enters as the fields of `World`; the
general statements quantify over every `World`, and `sampleWorld` serves the concrete
runs.  Go `error` values are modelled by their message, `nil` being `none`.  A request
is taken where the commands make it: the arguments they hand to `doUnixRequest` or
`doUnixJSON`, recorded in `Outcome.calls`.
-/

namespace MagiTrickle

/-! ## Resource schemas -/

/-- Modelled from the spec: the package `types` is not among the sources.  ErrorRes is the
generic error shape, a single human-readable message; `parseAPIError` reads its
field `Error`.  The zero value has the empty message. -/
structure ErrorRes where
  Error : String
  deriving DecidableEq

/-- Modelled from the spec: the request shape of a group, with the four fields that the
struct literals of `createGroupCmd` and `updateGroupCmd` set.  `Enable` is a pointer in
the source (`Enable: &enable`), hence an `Option`. -/
structure GroupReq where
  Name : String
  Interface : String
  Color : String
  Enable : Option Bool
  deriving DecidableEq

/-- Modelled from the spec: the request shape of a rule, with the four fields set by
`createRuleCmd` and `updateRuleCmd`.  `Typ` is the Go field `Type`. -/
structure RuleReq where
  Name : String
  Typ : String
  Rule : String
  Enable : Bool
  deriving DecidableEq

/-- Modelled from the spec: the bulk-replace request, an array of rule requests. -/
structure RulesReq where
  Rules : List RuleReq
  deriving DecidableEq

/-- Modelled from the spec: the hook request built by `netfilterdCmd`; `Typ` is the Go
field `Type`. -/
structure NetfilterDHookReq where
  Typ : String
  Table : String
  deriving DecidableEq

/-- Modelled from the spec: a rule as the daemon reports it.  `ID` holds the text that
`ID.String()` yields, `Typ` is the Go field `Type`. -/
structure RuleRes where
  ID : String
  Name : String
  Typ : String
  Rule : String
  Enable : Bool
  deriving DecidableEq

/-- Modelled from the spec: the rules container of a response.  The source dereferences
`Rules` (`*rulesRes.Rules`), so the field is a pointer to a slice: `none` is nil. -/
structure RulesRes where
  Rules : Option (List RuleRes)
  deriving DecidableEq

/-- Modelled from the spec: a group as the daemon reports it; `Rules` is the optional
expansion, a pointer to a slice in the source (`*g.Rules`). -/
structure GroupRes where
  ID : String
  Name : String
  Interface : String
  Enable : Bool
  Color : String
  Rules : Option (List RuleRes)
  deriving DecidableEq

/-- Modelled from the spec: the groups container, a pointer to a slice
(`*groupsRes.Groups`). -/
structure GroupsRes where
  Groups : Option (List GroupRes)
  deriving DecidableEq

/-- Modelled from the spec: an interface reported by the daemon. -/
structure InterfaceRes where
  ID : String
  deriving DecidableEq

/-- Modelled from the spec: the interfaces container.  The source takes
`len(ifaces.Interfaces)` without a dereference, so the field is a plain slice, whose nil
value has length zero like the empty one. -/
structure InterfacesRes where
  Interfaces : List InterfaceRes
  deriving DecidableEq

/-- The values that the commands hand to `doUnixJSON` as `data`. -/
inductive ReqData where
  | groupReq (r : GroupReq)
  | ruleReq (r : RuleReq)
  | rulesReq (r : RulesReq)
  | hookReq (r : NetfilterDHookReq)
  deriving DecidableEq

/-! ## HTTP values -/

/-- A response body as a reader: `content` is what the reader delivers, and `readErr`
is the error (other than end of file) that reading it runs into, if any. -/
structure Body where
  content : String
  readErr : Option String
  deriving DecidableEq

/-- The part of `http.Response` that the client looks at. -/
structure Response where
  StatusCode : Int
  Body : Body
  deriving DecidableEq

/-- The request that `doUnixRequest` hands to the HTTP client. -/
structure HttpRequest where
  method : String
  url : String
  body : Option String
  contentType : String
  deriving DecidableEq

/-- The library behaviour around the client: HTTP client, JSON codec and file system. -/
structure World where
  /-- The error of `http.NewRequest(method, url, body)`, `none` when it accepts. -/
  newRequestErr : String → String → Option String → Option String
  /-- The exchange `client.Do(req)` over the socket. -/
  clientDo : HttpRequest → Except String Response
  /-- The encoder `json.Marshal`. -/
  marshal : ReqData → Except String String
  /-- The call `json.Unmarshal(body, &errRes)` on a zero `errRes`: `some e` when it
  returns nil and leaves `errRes = e`, `none` when it returns an error. -/
  unmarshalErrorRes : String → Option ErrorRes
  decodeGroupsRes : Body → Except String GroupsRes
  decodeGroupRes : Body → Except String GroupRes
  decodeRulesRes : Body → Except String RulesRes
  decodeRuleRes : Body → Except String RuleRes
  decodeInterfacesRes : Body → Except String InterfacesRes
  /-- The call `os.ReadFile(path)`. -/
  readFile : String → Except String String
  /-- The call `json.Unmarshal(content, &rulesReq)`. -/
  unmarshalRulesReq : String → Except String RulesReq

/-- The verb `%d` of `fmt` on an `int`. -/
def fmtInt (n : Int) : String := toString n

/-- The verb `%v` of `fmt` on a `bool`. -/
def fmtBool (b : Bool) : String := if b then "true" else "false"

/-- The call `io.ReadAll(body)`. -/
def readAll (b : Body) : Except String String :=
  match b.readErr with
  | some e => .error e
  | none => .ok b.content

/-! ## helpers.go -/

/-- The error translator of `helpers.go`.  The result is the returned `error`. -/
def parseAPIError (w : World) (resp : Response) : Option String :=
  match readAll resp.Body with
  | .error err =>
    some ("request failed with status code " ++ fmtInt resp.StatusCode
      ++ " (and body read error: " ++ err ++ ")")
  | .ok body =>
    match w.unmarshalErrorRes body with
    | some errRes =>
      if errRes.Error ≠ "" then
        some ("api error " ++ fmtInt resp.StatusCode ++ ": " ++ errRes.Error)
      else
        some ("request failed with status code " ++ fmtInt resp.StatusCode)
    | none => some ("request failed with status code " ++ fmtInt resp.StatusCode)

/-! ## http_unix.go -/

/-- The transport of `http_unix.go`: one request to the socket, one response. -/
def doUnixRequest (w : World) (method urlPath : String) (body : Option String) :
    Except String Response :=
  match w.newRequestErr method ("http://unix" ++ urlPath) body with
  | some err => .error ("create request fail: " ++ err)
  | none => w.clientDo ⟨method, "http://unix" ++ urlPath, body, "application/json"⟩

/-- The JSON front of the transport: marshal `data` when there is one, then send. -/
def doUnixJSON (w : World) (method urlPath : String) (data : Option ReqData) :
    Except String Response :=
  match data with
  | none => doUnixRequest w method urlPath none
  | some d =>
    match w.marshal d with
    | .error err => .error ("json marshal fail: " ++ err)
    | .ok body => doUnixRequest w method urlPath (some body)

/-! ## Command framework

The part of cobra and pflag that the commands use: typed flags registered with a
default, their lookup by name, and positional-argument validation. -/

/-- The value of a registered flag. -/
inductive FlagVal where
  | str (s : String)
  | bool (b : Bool)
  deriving DecidableEq

/-- A flag set: the registered flags with their current values. -/
abbrev FlagSet := List (String × FlagVal)

/-- The lookup `cmd.Flags().GetString(name)` with its error dropped, as every call site
does: an unregistered flag, or one of another type, yields the zero value. -/
def FlagSet.GetString (fs : FlagSet) (name : String) : String :=
  match fs.lookup name with
  | some (.str s) => s
  | _ => ""

/-- The lookup `cmd.Flags().GetBool(name)` with its error dropped. -/
def FlagSet.GetBool (fs : FlagSet) (name : String) : Bool :=
  match fs.lookup name with
  | some (.bool b) => b
  | _ => false

/-- The parser `strconv.ParseBool`, which reads the value of a boolean flag. -/
def ParseBool (s : String) : Option Bool :=
  if s = "1" ∨ s = "t" ∨ s = "T" ∨ s = "TRUE" ∨ s = "true" ∨ s = "True" then some true
  else if s = "0" ∨ s = "f" ∨ s = "F" ∨ s = "FALSE" ∨ s = "false" ∨ s = "False" then
    some false
  else none

/-- Overwrite the value stored under `name`. -/
def FlagSet.assign (fs : FlagSet) (name : String) (v : FlagVal) : FlagSet :=
  fs.map fun p => if p.1 = name then (name, v) else p

/-- One command-line setting `--name=value`: an unregistered name is refused, a
boolean flag takes what `ParseBool` reads.  (A bare `--name` on a boolean flag stands
for `--name=true`.  The wording of the bad-value error is abridged.) -/
def FlagSet.Set (fs : FlagSet) (name value : String) : Except String FlagSet :=
  match fs.lookup name with
  | none => .error ("unknown flag: --" ++ name)
  | some (.str _) => .ok (fs.assign name (.str value))
  | some (.bool _) =>
    match ParseBool value with
    | some b => .ok (fs.assign name (.bool b))
    | none => .error ("invalid argument for --" ++ name ++ " flag: " ++ value)

/-- All settings of a command line, left to right. -/
def FlagSet.parse (fs : FlagSet) : List (String × String) → Except String FlagSet
  | [] => .ok fs
  | (name, value) :: rest =>
    match fs.Set name value with
    | .error err => .error err
    | .ok fs1 => FlagSet.parse fs1 rest

/-- The `Args` field of a command: unset (any arguments pass) or `cobra.ExactArgs(n)`. -/
inductive ArgsRule where
  | unset
  | exactArgs (n : Nat)
  deriving DecidableEq

/-- The error of the positional-argument validator, `none` when the arguments pass. -/
def ArgsRule.check (r : ArgsRule) (args : List String) : Option String :=
  match r with
  | .unset => none
  | .exactArgs n =>
    if args.length ≠ n then
      some ("accepts " ++ toString n ++ " arg(s), received " ++ toString args.length)
    else none

/-- One invocation of the transport by a command: `doUnixJSON(method, urlPath, data)`,
or `doUnixRequest(method, urlPath, nil)` when `data` is `none`. -/
structure TransportCall where
  method : String
  urlPath : String
  data : Option ReqData
  deriving DecidableEq

/-- How a command body ends: it returns its `error` (`none` is nil), or it panics. -/
inductive Exit where
  | returned (err : Option String)
  | panicked (msg : String)
  deriving DecidableEq

/-- What one run of a command does: the transport calls it makes, in order, the text it
writes to standard output, one entry per print call, and how it ends. -/
structure Outcome where
  calls : List TransportCall
  stdout : List String
  exit : Exit
  deriving DecidableEq

/-- A plain `return err` with nothing printed. -/
def failWith (err : Option String) : Outcome := ⟨[], [], .returned err⟩

/-- Print `out`, then `return nil`. -/
def succeed (out : List String) : Outcome := ⟨[], out, .returned none⟩

/-- The opening of a command that calls `doUnixRequest(method, urlPath, nil)`: a
transport error is returned as it is, otherwise the body goes on with the response. -/
def callUnixRequest (w : World) (method urlPath : String) (k : Response → Outcome) :
    Outcome :=
  match doUnixRequest w method urlPath none with
  | .error err => ⟨[⟨method, urlPath, none⟩], [], .returned (some err)⟩
  | .ok resp => ⟨⟨method, urlPath, none⟩ :: (k resp).calls, (k resp).stdout, (k resp).exit⟩

/-- The opening of a command that calls `doUnixJSON(method, urlPath, data)`. -/
def callUnixJSON (w : World) (method urlPath : String) (data : ReqData)
    (k : Response → Outcome) : Outcome :=
  match doUnixJSON w method urlPath (some data) with
  | .error err => ⟨[⟨method, urlPath, some data⟩], [], .returned (some err)⟩
  | .ok resp =>
    ⟨⟨method, urlPath, some data⟩ :: (k resp).calls, (k resp).stdout, (k resp).exit⟩

/-- A command: its name, its argument rule, the flags registered for it in `init` with
their defaults, and its body `RunE`. -/
structure Command where
  Use : String
  Args : ArgsRule
  Flags : FlagSet
  RunE : World → FlagSet → List String → Outcome

/-- One run of a command from the command line: the settings are parsed against the
registered flags, the arguments validated, and only then the body is run.  The help
flag that the framework adds to every command is left out. -/
def Command.execute (c : Command) (w : World) (settings : List (String × String))
    (args : List String) : Outcome :=
  match c.Flags.parse settings with
  | .error err => failWith (some err)
  | .ok fs =>
    match c.Args.check args with
    | some err => failWith (some err)
    | none => c.RunE w fs args

/-- The writer `urlBuilder` after the optional `WriteString("?save=true")`. -/
def withSave (url : String) (saveFlag : Bool) : String :=
  if saveFlag then url ++ "?save=true" else url

/-- The line printed for one rule by the rule commands. -/
def fmtRule (head : String) (r : RuleRes) : String :=
  head ++ "ID: " ++ r.ID ++ " | Name: " ++ r.Name ++ " | Type: " ++ r.Typ ++ " | Rule: "
    ++ r.Rule ++ " | Enabled: " ++ fmtBool r.Enable ++ "\n"

/-- The block printed for one group by `create` and `update`. -/
def fmtGroup (g : GroupRes) : String :=
  " ID: " ++ g.ID ++ "\n Name: " ++ g.Name ++ "\n Interface: " ++ g.Interface
    ++ "\n Enabled: " ++ fmtBool g.Enable ++ "\n Color: " ++ g.Color ++ "\n"

/-! ## group.go -/

/-- The lines printed for one group by `group list`. -/
def fmtListedGroup (withRules : Bool) (g : GroupRes) : List String :=
  [" - ID: " ++ g.ID ++ "\n   Name: " ++ g.Name ++ "\n   Interface: " ++ g.Interface
      ++ "\n   Enabled: " ++ fmtBool g.Enable ++ "\n   Color: " ++ g.Color ++ "\n"]
  ++ (match g.Rules with
      | some (r :: rs) =>
        if withRules then
          "   Rules:\n" :: (r :: rs).map fun x =>
            "     * " ++ x.Name ++ " (" ++ x.Typ ++ ") => " ++ x.Rule
              ++ " [enabled: " ++ fmtBool x.Enable ++ "]\n"
        else []
      | _ => [])
  ++ ["\n"]

/-- The body of `group list`. -/
def listgroupRunE (w : World) (fs : FlagSet) (_args : List String) : Outcome :=
  let withRules := fs.GetBool "with-rules"
  let url := if withRules then "/api/v1/groups" ++ "?with_rules=true" else "/api/v1/groups"
  callUnixRequest w "GET" url fun resp =>
    if resp.StatusCode ≠ 200 then failWith (parseAPIError w resp)
    else
      match w.decodeGroupsRes resp.Body with
      | .error err => failWith (some ("failed to decode GroupsRes: " ++ err))
      | .ok groupsRes =>
        match groupsRes.Groups with
        | none => succeed ["No groups found.\n"]
        | some [] => succeed ["No groups found.\n"]
        | some (g :: gs) =>
          succeed ("Groups:\n" :: ((g :: gs).map (fmtListedGroup withRules)).flatten)

/-- The body of `group create`. -/
def createGroupRunE (w : World) (fs : FlagSet) (_args : List String) : Outcome :=
  let name := fs.GetString "name"
  let iface := fs.GetString "interface"
  let enable := fs.GetBool "enable"
  let colorStr := fs.GetString "color"
  let reqBody : GroupReq := ⟨name, iface, colorStr, some enable⟩
  callUnixJSON w "POST" "/api/v1/groups" (.groupReq reqBody) fun resp =>
    if resp.StatusCode ≠ 200 then failWith (parseAPIError w resp)
    else
      match w.decodeGroupRes resp.Body with
      | .error err => failWith (some ("failed to decode GroupRes: " ++ err))
      | .ok groupRes => succeed ["Group created successfully\n", fmtGroup groupRes]

/-- The body of `group update`. -/
def updateGroupRunE (w : World) (fs : FlagSet) (args : List String) : Outcome :=
  match args with
  | [] =>
    failWith (some ("please provide the group ID as an argument, e.g. "
      ++ "\x27magitrickle group update <GROUP_ID>\x27"))
  | groupID :: _ =>
    let name := fs.GetString "name"
    let iface := fs.GetString "interface"
    let enable := fs.GetBool "enable"
    let colorStr := fs.GetString "color"
    let reqBody : GroupReq := ⟨name, iface, colorStr, some enable⟩
    let saveFlag := fs.GetBool "save"
    let url := withSave ("/api/v1/groups/" ++ groupID) saveFlag
    callUnixJSON w "PUT" url (.groupReq reqBody) fun resp =>
      if resp.StatusCode ≠ 200 then failWith (parseAPIError w resp)
      else
        match w.decodeGroupRes resp.Body with
        | .error err => failWith (some ("failed to decode updated GroupRes: " ++ err))
        | .ok groupRes => succeed ["Group updated successfully\n", fmtGroup groupRes]

/-- The body of `group delete`. -/
def deleteGroupRunE (w : World) (fs : FlagSet) (args : List String) : Outcome :=
  match args with
  | [] =>
    failWith (some ("please provide the group ID to delete, e.g. "
      ++ "\x27magitrickle group delete <GROUP_ID>\x27"))
  | groupID :: _ =>
    let saveFlag := fs.GetBool "save"
    let url := withSave ("/api/v1/groups/" ++ groupID) saveFlag
    callUnixRequest w "DELETE" url fun resp =>
      if resp.StatusCode ≠ 200 then failWith (parseAPIError w resp)
      else succeed ["Group deleted successfully\n"]

/-- The command `group list`, with the flag registered in `init`. -/
def listgroupCmd : Command :=
  ⟨"list", .unset, [("with-rules", .bool false)], listgroupRunE⟩

/-- The command `group create`, with the flags registered in `init`. -/
def createGroupCmd : Command :=
  ⟨"create", .unset,
    [("name", .str "NewGroup"), ("interface", .str "br0"), ("enable", .bool true),
      ("color", .str "#ffffff")],
    createGroupRunE⟩

/-- The command `group update`, with the flags registered in `init`. -/
def updateGroupCmd : Command :=
  ⟨"update", .unset,
    [("name", .str ""), ("interface", .str ""), ("enable", .bool true), ("color", .str ""),
      ("save", .bool false)],
    updateGroupRunE⟩

/-- The command `group delete`, with the flag registered in `init`. -/
def deleteGroupCmd : Command :=
  ⟨"delete", .unset, [("save", .bool false)], deleteGroupRunE⟩

/-! ## rule.go -/

/-- The result of indexing `args` beyond its length. -/
def indexPanic : Outcome := ⟨[], [], .panicked "index out of range"⟩

/-- The body of `rule list`. -/
def listRulesRunE (w : World) (_fs : FlagSet) (args : List String) : Outcome :=
  match args with
  | [] => indexPanic
  | groupID :: _ =>
    let url := "/api/v1/groups/" ++ groupID ++ "/rules"
    callUnixRequest w "GET" url fun resp =>
      if resp.StatusCode ≠ 200 then failWith (parseAPIError w resp)
      else
        match w.decodeRulesRes resp.Body with
        | .error err => failWith (some ("failed to decode RulesRes: " ++ err))
        | .ok rulesRes =>
          match rulesRes.Rules with
          | none => succeed ["No rules found for this group.\n"]
          | some [] => succeed ["No rules found for this group.\n"]
          | some (r :: rs) =>
            succeed (("Rules in group " ++ groupID ++ " :\n") :: (r :: rs).map (fmtRule " - "))

/-- The body of `rule replace`. -/
def replaceRulesRunE (w : World) (fs : FlagSet) (args : List String) : Outcome :=
  match args with
  | [] => indexPanic
  | groupID :: _ =>
    let filePath := fs.GetString "file"
    if filePath = "" then
      failWith (some "please specify --file=<path_to_json> with an array of rules")
    else
      let saveFlag := fs.GetBool "save"
      match w.readFile filePath with
      | .error err => failWith (some ("failed to read file " ++ filePath ++ ": " ++ err))
      | .ok content =>
        match w.unmarshalRulesReq content with
        | .error err => failWith (some ("failed to parse JSON from file: " ++ err))
        | .ok rulesReq =>
          let url := withSave ("/api/v1/groups/" ++ groupID ++ "/rules") saveFlag
          callUnixJSON w "PUT" url (.rulesReq rulesReq) fun resp =>
            if resp.StatusCode ≠ 200 then failWith (parseAPIError w resp)
            else
              match w.decodeRulesRes resp.Body with
              | .error err =>
                failWith (some ("failed to decode updated RulesRes: " ++ err))
              | .ok updated =>
                match updated.Rules with
                | none =>
                  ⟨[], ["Rules replaced successfully. Current rules:\n"],
                    .panicked "invalid memory address or nil pointer dereference"⟩
                | some rules =>
                  succeed ("Rules replaced successfully. Current rules:\n"
                    :: rules.map (fmtRule " - "))

/-- The body of `rule create`. -/
def createRuleRunE (w : World) (fs : FlagSet) (args : List String) : Outcome :=
  match args with
  | [] => indexPanic
  | groupID :: _ =>
    let name := fs.GetString "name"
    let rtype := fs.GetString "type"
    let ruleStr := fs.GetString "rule"
    let enable := fs.GetBool "enable"
    let saveFlag := fs.GetBool "save"
    let url := withSave ("/api/v1/groups/" ++ groupID ++ "/rules") saveFlag
    let reqBody : RuleReq := ⟨name, rtype, ruleStr, enable⟩
    callUnixJSON w "POST" url (.ruleReq reqBody) fun resp =>
      if resp.StatusCode ≠ 200 then failWith (parseAPIError w resp)
      else
        match w.decodeRuleRes resp.Body with
        | .error err => failWith (some ("failed to decode created RuleRes: " ++ err))
        | .ok created => succeed ["Rule created successfully:\n", fmtRule " " created]

/-- The body of `rule get`. -/
def getRuleRunE (w : World) (_fs : FlagSet) (args : List String) : Outcome :=
  match args with
  | groupID :: ruleID :: _ =>
    let url := "/api/v1/groups/" ++ groupID ++ "/rules/" ++ ruleID
    callUnixRequest w "GET" url fun resp =>
      if resp.StatusCode ≠ 200 then failWith (parseAPIError w resp)
      else
        match w.decodeRuleRes resp.Body with
        | .error err => failWith (some ("failed to decode RuleRes: " ++ err))
        | .ok rule => succeed ["Rule info:\n", fmtRule " " rule]
  | _ => indexPanic

/-- The body of `rule update`. -/
def updateRuleRunE (w : World) (fs : FlagSet) (args : List String) : Outcome :=
  match args with
  | groupID :: ruleID :: _ =>
    let name := fs.GetString "name"
    let rtype := fs.GetString "type"
    let ruleStr := fs.GetString "rule"
    let enable := fs.GetBool "enable"
    let saveFlag := fs.GetBool "save"
    let url := withSave ("/api/v1/groups/" ++ groupID ++ "/rules/" ++ ruleID) saveFlag
    let reqBody : RuleReq := ⟨name, rtype, ruleStr, enable⟩
    callUnixJSON w "PUT" url (.ruleReq reqBody) fun resp =>
      if resp.StatusCode ≠ 200 then failWith (parseAPIError w resp)
      else
        match w.decodeRuleRes resp.Body with
        | .error err => failWith (some ("failed to decode updated RuleRes: " ++ err))
        | .ok updated => succeed ["Rule updated successfully:\n", fmtRule " " updated]
  | _ => indexPanic

/-- The body of `rule delete`. -/
def deleteRuleRunE (w : World) (fs : FlagSet) (args : List String) : Outcome :=
  match args with
  | groupID :: ruleID :: _ =>
    let saveFlag := fs.GetBool "save"
    let url := withSave ("/api/v1/groups/" ++ groupID ++ "/rules/" ++ ruleID) saveFlag
    callUnixRequest w "DELETE" url fun resp =>
      if resp.StatusCode ≠ 200 then failWith (parseAPIError w resp)
      else succeed ["Rule deleted successfully\n"]
  | _ => indexPanic

/-- The command `rule list`. -/
def listRulesCmd : Command := ⟨"list <GROUP_ID>", .exactArgs 1, [], listRulesRunE⟩

/-- The command `rule replace`, with the flags registered in `init`. -/
def replaceRulesCmd : Command :=
  ⟨"replace <GROUP_ID>", .exactArgs 1, [("file", .str ""), ("save", .bool false)],
    replaceRulesRunE⟩

/-- The command `rule create`, with the flags registered in `init`. -/
def createRuleCmd : Command :=
  ⟨"create <GROUP_ID>", .exactArgs 1,
    [("name", .str ""), ("type", .str "domain"), ("rule", .str ""), ("enable", .bool true),
      ("save", .bool false)],
    createRuleRunE⟩

/-- The command `rule get`. -/
def getRuleCmd : Command := ⟨"get <GROUP_ID> <RULE_ID>", .exactArgs 2, [], getRuleRunE⟩

/-- The command `rule update`, with the flags registered in `init`. -/
def updateRuleCmd : Command :=
  ⟨"update <GROUP_ID> <RULE_ID>", .exactArgs 2,
    [("name", .str ""), ("type", .str ""), ("rule", .str ""), ("enable", .bool true),
      ("save", .bool false)],
    updateRuleRunE⟩

/-- The command `rule delete`, with the flag registered in `init`. -/
def deleteRuleCmd : Command :=
  ⟨"delete <GROUP_ID> <RULE_ID>", .exactArgs 2, [("save", .bool false)], deleteRuleRunE⟩

/-! ## system.go -/

/-- The body of `system netfilterd`. -/
def netfilterdRunE (w : World) (fs : FlagSet) (_args : List String) : Outcome :=
  let hookType := fs.GetString "type"
  let table := fs.GetString "table"
  let reqData : NetfilterDHookReq := ⟨hookType, table⟩
  callUnixJSON w "POST" "/api/v1/system/hooks/netfilterd" (.hookReq reqData) fun resp =>
    if resp.StatusCode ≠ 200 then failWith (parseAPIError w resp)
    else succeed ["Netfilterd hook triggered successfully\n"]

/-- The body of `system interfaces`. -/
def interfacesRunE (w : World) (_fs : FlagSet) (_args : List String) : Outcome :=
  callUnixRequest w "GET" "/api/v1/system/interfaces" fun resp =>
    if resp.StatusCode ≠ 200 then failWith (parseAPIError w resp)
    else
      match w.decodeInterfacesRes resp.Body with
      | .error err => failWith (some ("failed to decode InterfacesRes: " ++ err))
      | .ok ifaces =>
        if ifaces.Interfaces.length = 0 then succeed ["No interfaces found.\n"]
        else
          succeed ("Available Interfaces:\n"
            :: ifaces.Interfaces.map fun iface => "  - " ++ iface.ID ++ "\n")

/-- The body of `system save-config`. -/
def saveConfigRunE (w : World) (_fs : FlagSet) (_args : List String) : Outcome :=
  callUnixRequest w "POST" "/api/v1/system/config/save" fun resp =>
    if resp.StatusCode ≠ 200 ∧ resp.StatusCode ≠ 204 then failWith (parseAPIError w resp)
    else succeed ["Configuration saved successfully\n"]

/-- The command `system netfilterd`, with the flags registered in `init`. -/
def netfilterdCmd : Command :=
  ⟨"netfilterd", .unset, [("type", .str "filter"), ("table", .str "filter")],
    netfilterdRunE⟩

/-- The command `system interfaces`. -/
def interfacesCmd : Command := ⟨"interfaces", .unset, [], interfacesRunE⟩

/-- The command `system save-config`. -/
def saveConfigCmd : Command := ⟨"save-config", .unset, [], saveConfigRunE⟩

/-! ## Command tree

The children that `init` adds to the three parent commands. -/

/-- The children of `group`. -/
def groupCmd : List Command := [listgroupCmd, createGroupCmd, updateGroupCmd, deleteGroupCmd]

/-- The children of `rule`. -/
def ruleCmd : List Command :=
  [listRulesCmd, replaceRulesCmd, createRuleCmd, getRuleCmd, updateRuleCmd, deleteRuleCmd]

/-- The children of `system`. -/
def systemCmd : List Command := [netfilterdCmd, interfacesCmd, saveConfigCmd]

/-! ## Vocabulary of the statements -/

/-- The text `needle` occurs in `hay`. -/
def Mentions (hay needle : String) : Prop := needle.data <:+: hay.data

instance (hay needle : String) : Decidable (Mentions hay needle) := by
  unfold Mentions; infer_instance

/-- What the transport answers to a call. -/
def TransportCall.perform (w : World) (c : TransportCall) : Except String Response :=
  doUnixJSON w c.method c.urlPath c.data

/-- Two flag states that read alike under every name but `name`. -/
def FlagSet.agreeExcept (name : String) (fs1 fs2 : FlagSet) : Prop :=
  ∀ n, n ≠ name → fs1.GetString n = fs2.GetString n ∧ fs1.GetBool n = fs2.GetBool n

/-- Two worlds that differ at most in their response-schema decoders. -/
def World.sameButDecoders (w1 w2 : World) : Prop :=
  w1.newRequestErr = w2.newRequestErr ∧ w1.clientDo = w2.clientDo ∧ w1.marshal = w2.marshal
    ∧ w1.unmarshalErrorRes = w2.unmarshalErrorRes ∧ w1.readFile = w2.readFile
    ∧ w1.unmarshalRulesReq = w2.unmarshalRulesReq

/-- A world for concrete runs: the daemon answers every request with `resp`, requests
and marshalling never fail, and the codec knows a handful of bodies. -/
def sampleWorld (resp : Response) : World where
  newRequestErr := fun _ _ _ => none
  clientDo := fun _ => .ok resp
  marshal := fun _ => .ok "<json>"
  unmarshalErrorRes := fun body =>
    if body = "\x7b\"error\":\"group not found\"\x7d" then some ⟨"group not found"⟩
    else if body = "\x7b\x7d" then some ⟨""⟩
    else none
  decodeGroupsRes := fun b =>
    if b.content = "\x7b\x7d" then .ok ⟨none⟩
    else if b.content = "\x7b\"groups\":[]\x7d" then .ok ⟨some []⟩
    else .error "unexpected body"
  decodeGroupRes := fun _ => .error "unexpected body"
  decodeRulesRes := fun b =>
    if b.content = "\x7b\x7d" then .ok ⟨none⟩
    else if b.content = "\x7b\"rules\":[]\x7d" then .ok ⟨some []⟩
    else .error "unexpected body"
  decodeRuleRes := fun _ => .error "unexpected body"
  decodeInterfacesRes := fun b =>
    if b.content = "\x7b\x7d" then .ok ⟨[]⟩ else .error "unexpected body"
  readFile := fun path => if path = "rules.json" then .ok "[]" else .error "no such file"
  unmarshalRulesReq := fun content =>
    if content = "[]" then .ok ⟨[]⟩ else .error "unexpected content"

/-- A flag state for concrete runs, holding every flag that some command reads. -/
def sampleFlags (save : Bool) : FlagSet :=
  [("name", .str "MyGroup"), ("interface", .str "br0"), ("color", .str "#ffffff"),
    ("type", .str "domain"), ("rule", .str "example.com"), ("enable", .bool true),
    ("file", .str "rules.json"), ("save", .bool save)]

/-- The value that a command line gives to the flag `name`: that of its last setting
of the flag, `none` when no setting names it. -/
def lastGiven : List (String × String) → String → Option String
  | [], _ => none
  | (k, v) :: rest, name =>
    match lastGiven rest name with
    | some x => some x
    | none => if k = name then some v else none

/-- An identifier without the two characters that structure a request path. -/
def plainID (s : String) : Prop := '?' ∉ s.data ∧ '/' ∉ s.data

instance (s : String) : Decidable (plainID s) := by
  unfold plainID; infer_instance

/-! ## Lemmas on strings -/

theorem data_append (s t : String) : (s ++ t).data = s.data ++ t.data := rfl

theorem ne_of_head_ne (a b : Char) (s t : List Char) (x y : String) (h : a ≠ b) :
    String.mk (a :: s) ++ x ≠ String.mk (b :: t) ++ y := by
  intro heq
  have hd := congrArg String.data heq
  simp only [data_append, List.cons_append, List.cons.injEq] at hd
  exact h hd.1

theorem apiError_ne_statusOnly (x y : String) :
    "api error " ++ x ≠ "request failed with status code " ++ y :=
  ne_of_head_ne 'a' 'r' _ _ x y (by decide)

theorem mentions_mid (p m q : String) : Mentions (p ++ m ++ q) m :=
  ⟨p.data, q.data, by simp [data_append]⟩

theorem mentions_end (p m : String) : Mentions (p ++ m) m :=
  ⟨p.data, [], by simp [data_append]⟩

/-! ## The error translator -/

/-- Claim C1. For a response whose body can be read, `parseAPIError` returns
`api error <status>: <message>` exactly when the body unmarshals as an `ErrorRes` with
a non-empty `Error`, the message then being that field; in every other case it returns
`request failed with status code <status>`. -/
theorem parseAPIError_message (w : World) (status : Int) (content : String) :
    ((∃ msg, parseAPIError w ⟨status, ⟨content, none⟩⟩
          = some ("api error " ++ fmtInt status ++ ": " ++ msg))
        ↔ ∃ e, w.unmarshalErrorRes content = some e ∧ e.Error ≠ "")
    ∧ (∀ e, w.unmarshalErrorRes content = some e → e.Error ≠ "" →
        parseAPIError w ⟨status, ⟨content, none⟩⟩
          = some ("api error " ++ fmtInt status ++ ": " ++ e.Error))
    ∧ ((¬ ∃ e, w.unmarshalErrorRes content = some e ∧ e.Error ≠ "") →
        parseAPIError w ⟨status, ⟨content, none⟩⟩
          = some ("request failed with status code " ++ fmtInt status)) := by
  have hne : ∀ msg, "request failed with status code " ++ fmtInt status
      ≠ "api error " ++ fmtInt status ++ ": " ++ msg := by
    intro msg h
    rw [String.append_assoc, String.append_assoc] at h
    exact apiError_ne_statusOnly _ _ h.symm
  cases hu : w.unmarshalErrorRes content with
  | none => simp [parseAPIError, readAll, hu, hne]
  | some e =>
    by_cases he : e.Error = ""
    · simp [parseAPIError, readAll, hu, he, hne]
    · simp [parseAPIError, readAll, hu, he]

/-- Claim C2. Whatever the response (any status, any body, also one whose read fails),
`parseAPIError` returns a non-nil error whose message contains the decimal rendering
of the status code. -/
theorem parseAPIError_mentions_status (w : World) (resp : Response) :
    ∃ msg, parseAPIError w resp = some msg ∧ Mentions msg (fmtInt resp.StatusCode) := by
  unfold parseAPIError
  split
  · refine ⟨_, rfl, ?_⟩
    simp only [String.append_assoc]
    rw [← String.append_assoc]
    exact mentions_mid _ _ _
  · split
    · split
      · refine ⟨_, rfl, ?_⟩
        rw [String.append_assoc]
        exact mentions_mid _ _ _
      · exact ⟨_, rfl, mentions_end _ _⟩
    · exact ⟨_, rfl, mentions_end _ _⟩

/-! ## The transport calls of each command -/

theorem callUnixRequest_calls (w : World) (m u : String) (k : Response → Outcome)
    (hk : ∀ r, (k r).calls = []) : (callUnixRequest w m u k).calls = [⟨m, u, none⟩] := by
  unfold callUnixRequest
  split <;> simp [hk]

theorem callUnixJSON_calls (w : World) (m u : String) (d : ReqData) (k : Response → Outcome)
    (hk : ∀ r, (k r).calls = []) : (callUnixJSON w m u d k).calls = [⟨m, u, some d⟩] := by
  unfold callUnixJSON
  split <;> simp [hk]

theorem listgroup_calls (w : World) (fs : FlagSet) (args : List String) :
    (listgroupRunE w fs args).calls
      = [⟨"GET", if fs.GetBool "with-rules" then "/api/v1/groups" ++ "?with_rules=true"
          else "/api/v1/groups", none⟩] := by
  unfold listgroupRunE
  exact callUnixRequest_calls _ _ _ _ (fun r => by repeat (first | rfl | split))

theorem createGroup_calls (w : World) (fs : FlagSet) (args : List String) :
    (createGroupRunE w fs args).calls
      = [⟨"POST", "/api/v1/groups",
          some (.groupReq ⟨fs.GetString "name", fs.GetString "interface",
            fs.GetString "color", some (fs.GetBool "enable")⟩)⟩] := by
  unfold createGroupRunE
  exact callUnixJSON_calls _ _ _ _ _ (fun r => by repeat (first | rfl | split))

theorem updateGroup_calls (w : World) (fs : FlagSet) (g : String) (rest : List String) :
    (updateGroupRunE w fs (g :: rest)).calls
      = [⟨"PUT", withSave ("/api/v1/groups/" ++ g) (fs.GetBool "save"),
          some (.groupReq ⟨fs.GetString "name", fs.GetString "interface",
            fs.GetString "color", some (fs.GetBool "enable")⟩)⟩] := by
  unfold updateGroupRunE
  exact callUnixJSON_calls _ _ _ _ _ (fun r => by repeat (first | rfl | split))

theorem deleteGroup_calls (w : World) (fs : FlagSet) (g : String) (rest : List String) :
    (deleteGroupRunE w fs (g :: rest)).calls
      = [⟨"DELETE", withSave ("/api/v1/groups/" ++ g) (fs.GetBool "save"), none⟩] := by
  unfold deleteGroupRunE
  exact callUnixRequest_calls _ _ _ _ (fun r => by repeat (first | rfl | split))

theorem listRules_calls (w : World) (fs : FlagSet) (g : String) (rest : List String) :
    (listRulesRunE w fs (g :: rest)).calls
      = [⟨"GET", "/api/v1/groups/" ++ g ++ "/rules", none⟩] := by
  unfold listRulesRunE
  exact callUnixRequest_calls _ _ _ _ (fun r => by repeat (first | rfl | split))

theorem replaceRules_calls (w : World) (fs : FlagSet) (g : String) (rest : List String)
    (content : String) (rulesReq : RulesReq) (hfile : fs.GetString "file" ≠ "")
    (hread : w.readFile (fs.GetString "file") = .ok content)
    (hparse : w.unmarshalRulesReq content = .ok rulesReq) :
    (replaceRulesRunE w fs (g :: rest)).calls
      = [⟨"PUT", withSave ("/api/v1/groups/" ++ g ++ "/rules") (fs.GetBool "save"),
          some (.rulesReq rulesReq)⟩] := by
  unfold replaceRulesRunE
  simp only [hfile, if_false, hread, hparse]
  exact callUnixJSON_calls _ _ _ _ _ (fun r => by repeat (first | rfl | split))

theorem createRule_calls (w : World) (fs : FlagSet) (g : String) (rest : List String) :
    (createRuleRunE w fs (g :: rest)).calls
      = [⟨"POST", withSave ("/api/v1/groups/" ++ g ++ "/rules") (fs.GetBool "save"),
          some (.ruleReq ⟨fs.GetString "name", fs.GetString "type", fs.GetString "rule",
            fs.GetBool "enable"⟩)⟩] := by
  unfold createRuleRunE
  exact callUnixJSON_calls _ _ _ _ _ (fun r => by repeat (first | rfl | split))

theorem getRule_calls (w : World) (fs : FlagSet) (g r : String) (rest : List String) :
    (getRuleRunE w fs (g :: r :: rest)).calls
      = [⟨"GET", "/api/v1/groups/" ++ g ++ "/rules/" ++ r, none⟩] := by
  unfold getRuleRunE
  exact callUnixRequest_calls _ _ _ _ (fun r => by repeat (first | rfl | split))

theorem updateRule_calls (w : World) (fs : FlagSet) (g r : String) (rest : List String) :
    (updateRuleRunE w fs (g :: r :: rest)).calls
      = [⟨"PUT", withSave ("/api/v1/groups/" ++ g ++ "/rules/" ++ r) (fs.GetBool "save"),
          some (.ruleReq ⟨fs.GetString "name", fs.GetString "type", fs.GetString "rule",
            fs.GetBool "enable"⟩)⟩] := by
  unfold updateRuleRunE
  exact callUnixJSON_calls _ _ _ _ _ (fun r => by repeat (first | rfl | split))

theorem deleteRule_calls (w : World) (fs : FlagSet) (g r : String) (rest : List String) :
    (deleteRuleRunE w fs (g :: r :: rest)).calls
      = [⟨"DELETE", withSave ("/api/v1/groups/" ++ g ++ "/rules/" ++ r) (fs.GetBool "save"),
          none⟩] := by
  unfold deleteRuleRunE
  exact callUnixRequest_calls _ _ _ _ (fun r => by repeat (first | rfl | split))

theorem netfilterd_calls (w : World) (fs : FlagSet) (args : List String) :
    (netfilterdRunE w fs args).calls
      = [⟨"POST", "/api/v1/system/hooks/netfilterd",
          some (.hookReq ⟨fs.GetString "type", fs.GetString "table"⟩)⟩] := by
  unfold netfilterdRunE
  exact callUnixJSON_calls _ _ _ _ _ (fun r => by repeat (first | rfl | split))

theorem interfaces_calls (w : World) (fs : FlagSet) (args : List String) :
    (interfacesRunE w fs args).calls = [⟨"GET", "/api/v1/system/interfaces", none⟩] := by
  unfold interfacesRunE
  exact callUnixRequest_calls _ _ _ _ (fun r => by repeat (first | rfl | split))

theorem saveConfig_calls (w : World) (fs : FlagSet) (args : List String) :
    (saveConfigRunE w fs args).calls = [⟨"POST", "/api/v1/system/config/save", none⟩] := by
  unfold saveConfigRunE
  exact callUnixRequest_calls _ _ _ _ (fun r => by repeat (first | rfl | split))

/-! ## The save flag -/

/-- Claim C3. For the six commands that register a save flag, and for all identifier
arguments: take two flag states that agree on every flag but `save`, the first with
`save` true and the second with `save` false.  The first run calls the transport on the
resource path followed by `?save=true`, the second on the resource path alone, and both
calls have the same method and the same body. -/
theorem save_flag_only_changes_path (w : World) (fs1 fs2 : FlagSet) (g r : String)
    (rest : List String) (hagree : FlagSet.agreeExcept "save" fs1 fs2)
    (h1 : fs1.GetBool "save" = true) (h2 : fs2.GetBool "save" = false) :
    ((updateGroupRunE w fs1 (g :: rest)).calls
        = [⟨"PUT", "/api/v1/groups/" ++ g ++ "?save=true",
            some (.groupReq ⟨fs2.GetString "name", fs2.GetString "interface",
              fs2.GetString "color", some (fs2.GetBool "enable")⟩)⟩]
      ∧ (updateGroupRunE w fs2 (g :: rest)).calls
        = [⟨"PUT", "/api/v1/groups/" ++ g,
            some (.groupReq ⟨fs2.GetString "name", fs2.GetString "interface",
              fs2.GetString "color", some (fs2.GetBool "enable")⟩)⟩])
    ∧ ((deleteGroupRunE w fs1 (g :: rest)).calls
        = [⟨"DELETE", "/api/v1/groups/" ++ g ++ "?save=true", none⟩]
      ∧ (deleteGroupRunE w fs2 (g :: rest)).calls
        = [⟨"DELETE", "/api/v1/groups/" ++ g, none⟩])
    ∧ (∀ content rulesReq, fs2.GetString "file" ≠ "" →
        w.readFile (fs2.GetString "file") = .ok content →
        w.unmarshalRulesReq content = .ok rulesReq →
        (replaceRulesRunE w fs1 (g :: rest)).calls
          = [⟨"PUT", "/api/v1/groups/" ++ g ++ "/rules" ++ "?save=true",
              some (.rulesReq rulesReq)⟩]
        ∧ (replaceRulesRunE w fs2 (g :: rest)).calls
          = [⟨"PUT", "/api/v1/groups/" ++ g ++ "/rules", some (.rulesReq rulesReq)⟩])
    ∧ ((createRuleRunE w fs1 (g :: rest)).calls
        = [⟨"POST", "/api/v1/groups/" ++ g ++ "/rules" ++ "?save=true",
            some (.ruleReq ⟨fs2.GetString "name", fs2.GetString "type",
              fs2.GetString "rule", fs2.GetBool "enable"⟩)⟩]
      ∧ (createRuleRunE w fs2 (g :: rest)).calls
        = [⟨"POST", "/api/v1/groups/" ++ g ++ "/rules",
            some (.ruleReq ⟨fs2.GetString "name", fs2.GetString "type",
              fs2.GetString "rule", fs2.GetBool "enable"⟩)⟩])
    ∧ ((updateRuleRunE w fs1 (g :: r :: rest)).calls
        = [⟨"PUT", "/api/v1/groups/" ++ g ++ "/rules/" ++ r ++ "?save=true",
            some (.ruleReq ⟨fs2.GetString "name", fs2.GetString "type",
              fs2.GetString "rule", fs2.GetBool "enable"⟩)⟩]
      ∧ (updateRuleRunE w fs2 (g :: r :: rest)).calls
        = [⟨"PUT", "/api/v1/groups/" ++ g ++ "/rules/" ++ r,
            some (.ruleReq ⟨fs2.GetString "name", fs2.GetString "type",
              fs2.GetString "rule", fs2.GetBool "enable"⟩)⟩])
    ∧ ((deleteRuleRunE w fs1 (g :: r :: rest)).calls
        = [⟨"DELETE", "/api/v1/groups/" ++ g ++ "/rules/" ++ r ++ "?save=true", none⟩]
      ∧ (deleteRuleRunE w fs2 (g :: r :: rest)).calls
        = [⟨"DELETE", "/api/v1/groups/" ++ g ++ "/rules/" ++ r, none⟩]) := by
  have hs : ∀ n, n ≠ "save" → fs1.GetString n = fs2.GetString n := fun n hn => (hagree n hn).1
  have hb : ∀ n, n ≠ "save" → fs1.GetBool n = fs2.GetBool n := fun n hn => (hagree n hn).2
  have e1 := hs "name" (by decide)
  have e2 := hs "interface" (by decide)
  have e3 := hs "color" (by decide)
  have e4 := hs "type" (by decide)
  have e5 := hs "rule" (by decide)
  have e6 := hs "file" (by decide)
  have e7 := hb "enable" (by decide)
  refine ⟨⟨?_, ?_⟩, ⟨?_, ?_⟩, ?_, ⟨?_, ?_⟩, ⟨?_, ?_⟩, ⟨?_, ?_⟩⟩
  · rw [updateGroup_calls, h1, e1, e2, e3, e7]; rfl
  · rw [updateGroup_calls, h2]; rfl
  · rw [deleteGroup_calls, h1]; rfl
  · rw [deleteGroup_calls, h2]; rfl
  · intro content rulesReq hfile hread hparse
    constructor
    · rw [replaceRules_calls w fs1 g rest content rulesReq (by rw [e6]; exact hfile)
        (by rw [e6]; exact hread) hparse, h1]; rfl
    · rw [replaceRules_calls w fs2 g rest content rulesReq hfile hread hparse, h2]; rfl
  · rw [createRule_calls, h1, e1, e4, e5, e7]; rfl
  · rw [createRule_calls, h2]; rfl
  · rw [updateRule_calls, h1, e1, e4, e5, e7]; rfl
  · rw [updateRule_calls, h2]; rfl
  · rw [deleteRule_calls, h1]; rfl
  · rw [deleteRule_calls, h2]; rfl

theorem sampleFlags_agree : FlagSet.agreeExcept "save" (sampleFlags true) (sampleFlags false) := by
  intro n hn
  have hsave : (n == "save") = false := by simp [hn]
  have hlook : List.lookup n (sampleFlags true) = List.lookup n (sampleFlags false) := by
    simp only [sampleFlags, List.lookup, hsave]
  simp only [FlagSet.GetString, FlagSet.GetBool, hlook, and_self]

/-- Witness of C3 at group `g1`, rule `r1`. -/
theorem save_flag_only_changes_path_witness :
    FlagSet.agreeExcept "save" (sampleFlags true) (sampleFlags false)
    ∧ (deleteRuleRunE (sampleWorld ⟨200, ⟨"", none⟩⟩) (sampleFlags true) ["g1", "r1"]).calls
        = [⟨"DELETE", "/api/v1/groups/g1/rules/r1?save=true", none⟩]
    ∧ (deleteRuleRunE (sampleWorld ⟨200, ⟨"", none⟩⟩) (sampleFlags false) ["g1", "r1"]).calls
        = [⟨"DELETE", "/api/v1/groups/g1/rules/r1", none⟩] :=
  ⟨sampleFlags_agree,
    (save_flag_only_changes_path (sampleWorld ⟨200, ⟨"", none⟩⟩) (sampleFlags true)
      (sampleFlags false) "g1" "r1" [] sampleFlags_agree (by decide) (by decide)).2.2.2.2.2⟩

/-- Claim C4. `group create` has no save flag: `init` registers none for it, so a command
line that passes one is refused before the body runs and no request is made; and the
body, whatever the flag state, posts to the bare collection path. -/
theorem createGroup_has_no_save_flag :
    createGroupCmd.Flags.lookup "save" = none
    ∧ (∀ (w : World) (v : String) (args : List String),
        createGroupCmd.execute w [("save", v)] args
          = ⟨[], [], .returned (some "unknown flag: --save")⟩)
    ∧ (∀ (w : World) (fs : FlagSet) (args : List String) (call : TransportCall),
        call ∈ (createGroupRunE w fs args).calls → call.urlPath = "/api/v1/groups") := by
  refine ⟨by decide, ?_, ?_⟩
  · intro w v args
    rfl
  · intro w fs args call hcall
    rw [createGroup_calls, List.mem_singleton] at hcall
    rw [hcall]

/-! ## Single commands -/

theorem callUnixRequest_ok (w : World) (m u : String) (k : Response → Outcome)
    (resp : Response) (h : doUnixRequest w m u none = .ok resp) :
    callUnixRequest w m u k
      = ⟨⟨m, u, none⟩ :: (k resp).calls, (k resp).stdout, (k resp).exit⟩ := by
  unfold callUnixRequest
  rw [h]

theorem callUnixJSON_ok (w : World) (m u : String) (d : ReqData) (k : Response → Outcome)
    (resp : Response) (h : doUnixJSON w m u (some d) = .ok resp) :
    callUnixJSON w m u d k
      = ⟨⟨m, u, some d⟩ :: (k resp).calls, (k resp).stdout, (k resp).exit⟩ := by
  unfold callUnixJSON
  rw [h]

/-- Claim C5. For every group ID `g` and rule ID `r`, `rule delete` makes exactly one
transport call, with method DELETE, no body, and the path `/api/v1/groups/g/rules/r`,
followed by `?save=true` when the save flag is set; when the response has status 200 it
prints the deletion message and returns nil.  At `g1`, `r1` with the flag set the call
is `DELETE /api/v1/groups/g1/rules/r1?save=true`. -/
theorem deleteRule_request (w : World) (fs : FlagSet) (g r : String) :
    (deleteRuleRunE w fs [g, r]).calls
      = [⟨"DELETE",
          if fs.GetBool "save" then "/api/v1/groups/" ++ g ++ "/rules/" ++ r ++ "?save=true"
          else "/api/v1/groups/" ++ g ++ "/rules/" ++ r,
          none⟩]
    ∧ (∀ call resp, call ∈ (deleteRuleRunE w fs [g, r]).calls →
        call.perform w = .ok resp → resp.StatusCode = 200 →
        (deleteRuleRunE w fs [g, r]).stdout = ["Rule deleted successfully\n"]
        ∧ (deleteRuleRunE w fs [g, r]).exit = .returned none)
    ∧ deleteRuleCmd.execute (sampleWorld ⟨200, ⟨"", none⟩⟩) [("save", "true")] ["g1", "r1"]
      = ⟨[⟨"DELETE", "/api/v1/groups/g1/rules/r1?save=true", none⟩],
          ["Rule deleted successfully\n"], .returned none⟩ := by
  refine ⟨?_, ?_, by decide⟩
  · rw [deleteRule_calls]; rfl
  · intro call resp hcall hresp h200
    rw [deleteRule_calls, List.mem_singleton] at hcall
    subst hcall
    have hresp2 : doUnixRequest w "DELETE"
        (withSave ("/api/v1/groups/" ++ g ++ "/rules/" ++ r) (fs.GetBool "save")) none
        = .ok resp := hresp
    unfold deleteRuleRunE
    simp only [callUnixRequest_ok _ _ _ _ _ hresp2, h200]
    exact ⟨rfl, rfl⟩

/-- Claim C6. `group create` posts to `/api/v1/groups` a group request whose name,
interface, color and enable are the values of the flags, and nothing else (the request
shape has no identifier); with all four flags given on the command line these are the
given values, with none given they are the defaults `NewGroup`, `br0`, `#ffffff` and
true. -/
theorem createGroup_request (w : World) (args : List String) :
    (∀ fs : FlagSet, (createGroupRunE w fs args).calls
        = [⟨"POST", "/api/v1/groups",
            some (.groupReq ⟨fs.GetString "name", fs.GetString "interface",
              fs.GetString "color", some (fs.GetBool "enable")⟩)⟩])
    ∧ (∀ (name iface color v : String) (enable : Bool), ParseBool v = some enable →
        (createGroupCmd.execute w
            [("name", name), ("interface", iface), ("color", color), ("enable", v)] args).calls
          = [⟨"POST", "/api/v1/groups", some (.groupReq ⟨name, iface, color, some enable⟩)⟩])
    ∧ (createGroupCmd.execute w [] args).calls
        = [⟨"POST", "/api/v1/groups",
            some (.groupReq ⟨"NewGroup", "br0", "#ffffff", some true⟩)⟩]
    ∧ (createGroupCmd.execute w
          [("name", "MyGroup"), ("interface", "br0"), ("enable", "true"),
            ("color", "#ffffff")] args).calls
        = [⟨"POST", "/api/v1/groups",
            some (.groupReq ⟨"MyGroup", "br0", "#ffffff", some true⟩)⟩] := by
  refine ⟨fun fs => createGroup_calls w fs args, ?_, ?_, ?_⟩
  · intro name iface color v enable hv
    simp [Command.execute, createGroupCmd, FlagSet.parse, FlagSet.Set, FlagSet.assign,
      List.lookup, hv, ArgsRule.check, createGroup_calls, FlagSet.GetString,
      FlagSet.GetBool]
  · exact createGroup_calls w _ args
  · exact createGroup_calls w _ args

/-! ## The status gate -/

theorem parseAPIError_head (w : World) (resp : Response) :
    ∃ (c : Char) (t : List Char) (x : String),
      (c = 'a' ∨ c = 'r') ∧ parseAPIError w resp = some (String.mk (c :: t) ++ x) := by
  unfold parseAPIError
  split
  · exact ⟨'r', _, _, Or.inr rfl, by simp only [String.append_assoc]; rfl⟩
  · split
    · split
      · exact ⟨'a', _, _, Or.inl rfl, by simp only [String.append_assoc]; rfl⟩
      · exact ⟨'r', _, _, Or.inr rfl, rfl⟩
    · exact ⟨'r', _, _, Or.inr rfl, rfl⟩

theorem parseAPIError_ne_failed (w : World) (resp : Response) (t : List Char) (x : String) :
    parseAPIError w resp ≠ some (String.mk ('f' :: t) ++ x) := by
  obtain ⟨c, t1, x1, hc, h⟩ := parseAPIError_head w resp
  rw [h]
  intro heq
  have hne : c ≠ 'f' := by rcases hc with rfl | rfl <;> decide
  exact ne_of_head_ne c 'f' t1 t x1 x hne (Option.some.inj heq)

theorem failWith_not_translated (w : World) (resp : Response) (t : List Char) (x : String) :
    ¬ ((failWith (some (String.mk ('f' :: t) ++ x))).exit = .returned (parseAPIError w resp)
      ∧ (failWith (some (String.mk ('f' :: t) ++ x))).stdout = []) := by
  rintro ⟨h, -⟩
  exact parseAPIError_ne_failed w resp t x (Exit.returned.inj h).symm

theorem succeed_not_translated (e : Option String) (a : String) (l : List String) :
    ¬ ((succeed (a :: l)).exit = .returned e ∧ (succeed (a :: l)).stdout = []) := by
  rintro ⟨-, h⟩
  exact List.cons_ne_nil _ _ h

theorem callUnixJSON_gated (w : World) (m u : String) (d : ReqData) (k : Response → Outcome)
    (resp : Response) (hresp : doUnixJSON w m u (some d) = .ok resp)
    (hne : resp.StatusCode ≠ 200 → k resp = failWith (parseAPIError w resp))
    (h200 : resp.StatusCode = 200 →
      ¬ ((k resp).exit = .returned (parseAPIError w resp) ∧ (k resp).stdout = [])) :
    callUnixJSON w m u d k = ⟨[⟨m, u, some d⟩], [], .returned (parseAPIError w resp)⟩
      ↔ resp.StatusCode ≠ 200 := by
  rw [callUnixJSON_ok w m u d k resp hresp]
  constructor
  · intro h hs
    have h1 := congrArg Outcome.exit h
    have h2 := congrArg Outcome.stdout h
    exact h200 hs ⟨h1, h2⟩
  · intro hs
    rw [hne hs]
    rfl

theorem callUnixRequest_gated (w : World) (m u : String) (k : Response → Outcome)
    (resp : Response) (hresp : doUnixRequest w m u none = .ok resp)
    (hne : resp.StatusCode ≠ 200 → k resp = failWith (parseAPIError w resp))
    (h200 : resp.StatusCode = 200 →
      ¬ ((k resp).exit = .returned (parseAPIError w resp) ∧ (k resp).stdout = [])) :
    callUnixRequest w m u k = ⟨[⟨m, u, none⟩], [], .returned (parseAPIError w resp)⟩
      ↔ resp.StatusCode ≠ 200 := by
  rw [callUnixRequest_ok w m u k resp hresp]
  constructor
  · intro h hs
    have h1 := congrArg Outcome.exit h
    have h2 := congrArg Outcome.stdout h
    exact h200 hs ⟨h1, h2⟩
  · intro hs
    rw [hne hs]
    rfl

theorem sameButDecoders_refl (w : World) : w.sameButDecoders w :=
  ⟨rfl, rfl, rfl, rfl, rfl, rfl⟩

theorem doUnixJSON_same (w w2 : World) (h : w.sameButDecoders w2) (m u : String)
    (d : Option ReqData) : doUnixJSON w2 m u d = doUnixJSON w m u d := by
  obtain ⟨h1, h2, h3, -, -, -⟩ := h
  unfold doUnixJSON doUnixRequest
  rw [h1, h2, h3]

theorem parseAPIError_same (w w2 : World) (h : w.sameButDecoders w2) (resp : Response) :
    parseAPIError w2 resp = parseAPIError w resp := by
  obtain ⟨-, -, -, h4, -, -⟩ := h
  unfold parseAPIError
  rw [h4]

theorem gated_of_key (run : World → Outcome) (w : World) (call : TransportCall)
    (resp : Response)
    (key : ∀ w2, w.sameButDecoders w2 →
      (run w2 = ⟨[call], [], .returned (parseAPIError w2 resp)⟩ ↔ resp.StatusCode ≠ 200)) :
    (run w = ⟨[call], [], .returned (parseAPIError w resp)⟩ ↔ resp.StatusCode ≠ 200)
    ∧ (resp.StatusCode ≠ 200 → ∀ w2, w.sameButDecoders w2 → run w2 = run w) := by
  refine ⟨key w (sameButDecoders_refl w), fun hs w2 hsame => ?_⟩
  rw [(key w2 hsame).2 hs, (key w (sameButDecoders_refl w)).2 hs, parseAPIError_same w w2 hsame]

theorem listgroup_key (w : World) (fs : FlagSet) (args : List String)
    (call : TransportCall) (resp : Response)
    (hcall : call ∈ (listgroupRunE w fs args).calls) (hresp : call.perform w = .ok resp) :
    ∀ w2, w.sameButDecoders w2 →
      (listgroupRunE w2 fs args = ⟨[call], [], .returned (parseAPIError w2 resp)⟩
        ↔ resp.StatusCode ≠ 200) := by
  rw [listgroup_calls, List.mem_singleton] at hcall
  subst hcall
  intro w2 hsame
  have hresp2 := hresp
  unfold TransportCall.perform at hresp2
  rw [← doUnixJSON_same w w2 hsame] at hresp2
  unfold listgroupRunE
  refine callUnixRequest_gated _ _ _ _ resp hresp2 (fun h => if_pos h) (fun h => ?_)
  simp only [h, ne_eq, not_true_eq_false, if_false]
  repeat' split
  all_goals first
    | exact failWith_not_translated _ _ _ _
    | exact succeed_not_translated _ _ _

theorem createGroup_key (w : World) (fs : FlagSet) (args : List String)
    (call : TransportCall) (resp : Response)
    (hcall : call ∈ (createGroupRunE w fs args).calls) (hresp : call.perform w = .ok resp) :
    ∀ w2, w.sameButDecoders w2 →
      (createGroupRunE w2 fs args = ⟨[call], [], .returned (parseAPIError w2 resp)⟩
        ↔ resp.StatusCode ≠ 200) := by
  rw [createGroup_calls, List.mem_singleton] at hcall
  subst hcall
  intro w2 hsame
  have hresp2 := hresp
  unfold TransportCall.perform at hresp2
  rw [← doUnixJSON_same w w2 hsame] at hresp2
  unfold createGroupRunE
  refine callUnixJSON_gated _ _ _ _ _ resp hresp2 (fun h => if_pos h) (fun h => ?_)
  simp only [h, ne_eq, not_true_eq_false, if_false]
  repeat' split
  all_goals first
    | exact failWith_not_translated _ _ _ _
    | exact succeed_not_translated _ _ _

theorem updateGroup_key (w : World) (fs : FlagSet) (args : List String)
    (call : TransportCall) (resp : Response)
    (hcall : call ∈ (updateGroupRunE w fs args).calls) (hresp : call.perform w = .ok resp) :
    ∀ w2, w.sameButDecoders w2 →
      (updateGroupRunE w2 fs args = ⟨[call], [], .returned (parseAPIError w2 resp)⟩
        ↔ resp.StatusCode ≠ 200) := by
  cases args with
  | nil => exact absurd hcall (List.not_mem_nil _)
  | cons g rest =>
    rw [updateGroup_calls, List.mem_singleton] at hcall
    subst hcall
    intro w2 hsame
    have hresp2 := hresp
    unfold TransportCall.perform at hresp2
    rw [← doUnixJSON_same w w2 hsame] at hresp2
    unfold updateGroupRunE
    refine callUnixJSON_gated _ _ _ _ _ resp hresp2 (fun h => if_pos h) (fun h => ?_)
    simp only [h, ne_eq, not_true_eq_false, if_false]
    repeat' split
    all_goals first
      | exact failWith_not_translated _ _ _ _
      | exact succeed_not_translated _ _ _

theorem deleteGroup_key (w : World) (fs : FlagSet) (args : List String)
    (call : TransportCall) (resp : Response)
    (hcall : call ∈ (deleteGroupRunE w fs args).calls) (hresp : call.perform w = .ok resp) :
    ∀ w2, w.sameButDecoders w2 →
      (deleteGroupRunE w2 fs args = ⟨[call], [], .returned (parseAPIError w2 resp)⟩
        ↔ resp.StatusCode ≠ 200) := by
  cases args with
  | nil => exact absurd hcall (List.not_mem_nil _)
  | cons g rest =>
    rw [deleteGroup_calls, List.mem_singleton] at hcall
    subst hcall
    intro w2 hsame
    have hresp2 := hresp
    unfold TransportCall.perform at hresp2
    rw [← doUnixJSON_same w w2 hsame] at hresp2
    unfold deleteGroupRunE
    refine callUnixRequest_gated _ _ _ _ resp hresp2 (fun h => if_pos h) (fun h => ?_)
    simp only [h, ne_eq, not_true_eq_false, if_false]
    all_goals first
      | exact failWith_not_translated _ _ _ _
      | exact succeed_not_translated _ _ _

theorem listRules_key (w : World) (fs : FlagSet) (args : List String)
    (call : TransportCall) (resp : Response)
    (hcall : call ∈ (listRulesRunE w fs args).calls) (hresp : call.perform w = .ok resp) :
    ∀ w2, w.sameButDecoders w2 →
      (listRulesRunE w2 fs args = ⟨[call], [], .returned (parseAPIError w2 resp)⟩
        ↔ resp.StatusCode ≠ 200) := by
  cases args with
  | nil => exact absurd hcall (List.not_mem_nil _)
  | cons g rest =>
    rw [listRules_calls, List.mem_singleton] at hcall
    subst hcall
    intro w2 hsame
    have hresp2 := hresp
    unfold TransportCall.perform at hresp2
    rw [← doUnixJSON_same w w2 hsame] at hresp2
    unfold listRulesRunE
    refine callUnixRequest_gated _ _ _ _ resp hresp2 (fun h => if_pos h) (fun h => ?_)
    simp only [h, ne_eq, not_true_eq_false, if_false]
    repeat' split
    all_goals first
      | exact failWith_not_translated _ _ _ _
      | exact succeed_not_translated _ _ _

theorem createRule_key (w : World) (fs : FlagSet) (args : List String)
    (call : TransportCall) (resp : Response)
    (hcall : call ∈ (createRuleRunE w fs args).calls) (hresp : call.perform w = .ok resp) :
    ∀ w2, w.sameButDecoders w2 →
      (createRuleRunE w2 fs args = ⟨[call], [], .returned (parseAPIError w2 resp)⟩
        ↔ resp.StatusCode ≠ 200) := by
  cases args with
  | nil => exact absurd hcall (List.not_mem_nil _)
  | cons g rest =>
    rw [createRule_calls, List.mem_singleton] at hcall
    subst hcall
    intro w2 hsame
    have hresp2 := hresp
    unfold TransportCall.perform at hresp2
    rw [← doUnixJSON_same w w2 hsame] at hresp2
    unfold createRuleRunE
    refine callUnixJSON_gated _ _ _ _ _ resp hresp2 (fun h => if_pos h) (fun h => ?_)
    simp only [h, ne_eq, not_true_eq_false, if_false]
    repeat' split
    all_goals first
      | exact failWith_not_translated _ _ _ _
      | exact succeed_not_translated _ _ _

theorem getRule_key (w : World) (fs : FlagSet) (args : List String)
    (call : TransportCall) (resp : Response)
    (hcall : call ∈ (getRuleRunE w fs args).calls) (hresp : call.perform w = .ok resp) :
    ∀ w2, w.sameButDecoders w2 →
      (getRuleRunE w2 fs args = ⟨[call], [], .returned (parseAPIError w2 resp)⟩
        ↔ resp.StatusCode ≠ 200) := by
  match args, hcall with
  | [], hcall => exact absurd hcall (List.not_mem_nil _)
  | [_], hcall => exact absurd hcall (List.not_mem_nil _)
  | g :: r :: rest, hcall =>
    rw [getRule_calls, List.mem_singleton] at hcall
    subst hcall
    intro w2 hsame
    have hresp2 := hresp
    unfold TransportCall.perform at hresp2
    rw [← doUnixJSON_same w w2 hsame] at hresp2
    unfold getRuleRunE
    refine callUnixRequest_gated _ _ _ _ resp hresp2 (fun h => if_pos h) (fun h => ?_)
    simp only [h, ne_eq, not_true_eq_false, if_false]
    repeat' split
    all_goals first
      | exact failWith_not_translated _ _ _ _
      | exact succeed_not_translated _ _ _

theorem updateRule_key (w : World) (fs : FlagSet) (args : List String)
    (call : TransportCall) (resp : Response)
    (hcall : call ∈ (updateRuleRunE w fs args).calls) (hresp : call.perform w = .ok resp) :
    ∀ w2, w.sameButDecoders w2 →
      (updateRuleRunE w2 fs args = ⟨[call], [], .returned (parseAPIError w2 resp)⟩
        ↔ resp.StatusCode ≠ 200) := by
  match args, hcall with
  | [], hcall => exact absurd hcall (List.not_mem_nil _)
  | [_], hcall => exact absurd hcall (List.not_mem_nil _)
  | g :: r :: rest, hcall =>
    rw [updateRule_calls, List.mem_singleton] at hcall
    subst hcall
    intro w2 hsame
    have hresp2 := hresp
    unfold TransportCall.perform at hresp2
    rw [← doUnixJSON_same w w2 hsame] at hresp2
    unfold updateRuleRunE
    refine callUnixJSON_gated _ _ _ _ _ resp hresp2 (fun h => if_pos h) (fun h => ?_)
    simp only [h, ne_eq, not_true_eq_false, if_false]
    repeat' split
    all_goals first
      | exact failWith_not_translated _ _ _ _
      | exact succeed_not_translated _ _ _

theorem deleteRule_key (w : World) (fs : FlagSet) (args : List String)
    (call : TransportCall) (resp : Response)
    (hcall : call ∈ (deleteRuleRunE w fs args).calls) (hresp : call.perform w = .ok resp) :
    ∀ w2, w.sameButDecoders w2 →
      (deleteRuleRunE w2 fs args = ⟨[call], [], .returned (parseAPIError w2 resp)⟩
        ↔ resp.StatusCode ≠ 200) := by
  match args, hcall with
  | [], hcall => exact absurd hcall (List.not_mem_nil _)
  | [_], hcall => exact absurd hcall (List.not_mem_nil _)
  | g :: r :: rest, hcall =>
    rw [deleteRule_calls, List.mem_singleton] at hcall
    subst hcall
    intro w2 hsame
    have hresp2 := hresp
    unfold TransportCall.perform at hresp2
    rw [← doUnixJSON_same w w2 hsame] at hresp2
    unfold deleteRuleRunE
    refine callUnixRequest_gated _ _ _ _ resp hresp2 (fun h => if_pos h) (fun h => ?_)
    simp only [h, ne_eq, not_true_eq_false, if_false]
    all_goals first
      | exact failWith_not_translated _ _ _ _
      | exact succeed_not_translated _ _ _

theorem netfilterd_key (w : World) (fs : FlagSet) (args : List String)
    (call : TransportCall) (resp : Response)
    (hcall : call ∈ (netfilterdRunE w fs args).calls) (hresp : call.perform w = .ok resp) :
    ∀ w2, w.sameButDecoders w2 →
      (netfilterdRunE w2 fs args = ⟨[call], [], .returned (parseAPIError w2 resp)⟩
        ↔ resp.StatusCode ≠ 200) := by
  rw [netfilterd_calls, List.mem_singleton] at hcall
  subst hcall
  intro w2 hsame
  have hresp2 := hresp
  unfold TransportCall.perform at hresp2
  rw [← doUnixJSON_same w w2 hsame] at hresp2
  unfold netfilterdRunE
  refine callUnixJSON_gated _ _ _ _ _ resp hresp2 (fun h => if_pos h) (fun h => ?_)
  simp only [h, ne_eq, not_true_eq_false, if_false]
  all_goals first
    | exact failWith_not_translated _ _ _ _
    | exact succeed_not_translated _ _ _

theorem interfaces_key (w : World) (fs : FlagSet) (args : List String)
    (call : TransportCall) (resp : Response)
    (hcall : call ∈ (interfacesRunE w fs args).calls) (hresp : call.perform w = .ok resp) :
    ∀ w2, w.sameButDecoders w2 →
      (interfacesRunE w2 fs args = ⟨[call], [], .returned (parseAPIError w2 resp)⟩
        ↔ resp.StatusCode ≠ 200) := by
  rw [interfaces_calls, List.mem_singleton] at hcall
  subst hcall
  intro w2 hsame
  have hresp2 := hresp
  unfold TransportCall.perform at hresp2
  rw [← doUnixJSON_same w w2 hsame] at hresp2
  unfold interfacesRunE
  refine callUnixRequest_gated _ _ _ _ resp hresp2 (fun h => if_pos h) (fun h => ?_)
  simp only [h, ne_eq, not_true_eq_false, if_false]
  repeat' split
  all_goals first
    | exact failWith_not_translated _ _ _ _
    | exact succeed_not_translated _ _ _

theorem replaceRules_key (w : World) (fs : FlagSet) (args : List String)
    (call : TransportCall) (resp : Response)
    (hcall : call ∈ (replaceRulesRunE w fs args).calls) (hresp : call.perform w = .ok resp) :
    ∀ w2, w.sameButDecoders w2 →
      (replaceRulesRunE w2 fs args = ⟨[call], [], .returned (parseAPIError w2 resp)⟩
        ↔ resp.StatusCode ≠ 200) := by
  cases args with
  | nil => exact absurd hcall (List.not_mem_nil _)
  | cons g rest =>
    by_cases hfile : fs.GetString "file" = ""
    · simp [replaceRulesRunE, hfile, failWith] at hcall
    · cases hread : w.readFile (fs.GetString "file") with
      | error e => simp [replaceRulesRunE, hfile, hread, failWith] at hcall
      | ok content =>
        cases hparse : w.unmarshalRulesReq content with
        | error e => simp [replaceRulesRunE, hfile, hread, hparse, failWith] at hcall
        | ok rulesReq =>
          rw [replaceRules_calls w fs g rest content rulesReq hfile hread hparse,
            List.mem_singleton] at hcall
          subst hcall
          intro w2 hsame
          have hresp2 := hresp
          unfold TransportCall.perform at hresp2
          rw [← doUnixJSON_same w w2 hsame] at hresp2
          obtain ⟨-, -, -, -, h5, h6⟩ := hsame
          unfold replaceRulesRunE
          simp only [hfile, if_false, ← h5, ← h6, hread, hparse]
          refine callUnixJSON_gated _ _ _ _ _ resp hresp2 (fun h => if_pos h) (fun h => ?_)
          simp only [h, ne_eq, not_true_eq_false, if_false]
          repeat' split
          · exact failWith_not_translated _ _ _ _
          · rintro ⟨hexit, -⟩
            cases hexit
          · exact succeed_not_translated _ _ _

/-- Claim C7. For each of the twelve commands other than `save-config`, and whatever the
response to its transport call: the run consists of that call, prints nothing and
returns exactly the error of `parseAPIError`, if and only if the status code is not
200; so 201 and 204 count as failures.  In that case no response decoder is consulted:
the run is the same in every world that differs at most in those decoders. -/
theorem non200_status_iff_parseAPIError (c : Command)
    (hc : c ∈ groupCmd ++ ruleCmd ++ [netfilterdCmd, interfacesCmd]) (w : World)
    (fs : FlagSet) (args : List String) (call : TransportCall) (resp : Response)
    (hcall : call ∈ (c.RunE w fs args).calls) (hresp : call.perform w = .ok resp) :
    (c.RunE w fs args = ⟨[call], [], .returned (parseAPIError w resp)⟩
      ↔ resp.StatusCode ≠ 200)
    ∧ (resp.StatusCode ≠ 200 →
        ∀ w2, w.sameButDecoders w2 → c.RunE w2 fs args = c.RunE w fs args) := by
  simp only [groupCmd, ruleCmd, List.cons_append, List.nil_append, List.mem_cons,
    List.mem_singleton, List.not_mem_nil, or_false] at hc
  rcases hc with h | h | h | h | h | h | h | h | h | h | h | h <;> subst h
  · exact gated_of_key _ w call resp (listgroup_key w fs args call resp hcall hresp)
  · exact gated_of_key _ w call resp (createGroup_key w fs args call resp hcall hresp)
  · exact gated_of_key _ w call resp (updateGroup_key w fs args call resp hcall hresp)
  · exact gated_of_key _ w call resp (deleteGroup_key w fs args call resp hcall hresp)
  · exact gated_of_key _ w call resp (listRules_key w fs args call resp hcall hresp)
  · exact gated_of_key _ w call resp (replaceRules_key w fs args call resp hcall hresp)
  · exact gated_of_key _ w call resp (createRule_key w fs args call resp hcall hresp)
  · exact gated_of_key _ w call resp (getRule_key w fs args call resp hcall hresp)
  · exact gated_of_key _ w call resp (updateRule_key w fs args call resp hcall hresp)
  · exact gated_of_key _ w call resp (deleteRule_key w fs args call resp hcall hresp)
  · exact gated_of_key _ w call resp (netfilterd_key w fs args call resp hcall hresp)
  · exact gated_of_key _ w call resp (interfaces_key w fs args call resp hcall hresp)

/-- Witness of C7: `group create` answered with 201, `rule delete` answered with 204. -/
theorem non200_status_iff_parseAPIError_witness :
    createGroupRunE (sampleWorld ⟨201, ⟨"", none⟩⟩) createGroupCmd.Flags []
      = ⟨[⟨"POST", "/api/v1/groups",
            some (.groupReq ⟨"NewGroup", "br0", "#ffffff", some true⟩)⟩], [],
          .returned (some "request failed with status code 201")⟩
    ∧ deleteRuleRunE (sampleWorld ⟨204, ⟨"", none⟩⟩) (sampleFlags false) ["g1", "r1"]
      = ⟨[⟨"DELETE", "/api/v1/groups/g1/rules/r1", none⟩], [],
          .returned (some "request failed with status code 204")⟩ :=
  ⟨(non200_status_iff_parseAPIError createGroupCmd (by simp [groupCmd])
      (sampleWorld ⟨201, ⟨"", none⟩⟩) createGroupCmd.Flags []
      ⟨"POST", "/api/v1/groups", some (.groupReq ⟨"NewGroup", "br0", "#ffffff", some true⟩)⟩
      ⟨201, ⟨"", none⟩⟩ (by decide) rfl).1.2 (by decide),
    (non200_status_iff_parseAPIError deleteRuleCmd (by simp [ruleCmd])
      (sampleWorld ⟨204, ⟨"", none⟩⟩) (sampleFlags false) ["g1", "r1"]
      ⟨"DELETE", "/api/v1/groups/g1/rules/r1", none⟩
      ⟨204, ⟨"", none⟩⟩ (by decide) rfl).1.2 (by decide)⟩

/-- Claim C8. `save-config` makes one call, POST on `/api/v1/system/config/save` with no
body; whatever the response, it prints the saved message and returns nil if and only if
the status is 200 or 204, and for every other status it returns the error of
`parseAPIError` and prints nothing. -/
theorem saveConfig_success_iff (w : World) (fs : FlagSet) (args : List String) :
    (saveConfigRunE w fs args).calls = [⟨"POST", "/api/v1/system/config/save", none⟩]
    ∧ (∀ resp, doUnixRequest w "POST" "/api/v1/system/config/save" none = .ok resp →
        (saveConfigRunE w fs args
            = ⟨[⟨"POST", "/api/v1/system/config/save", none⟩],
                ["Configuration saved successfully\n"], .returned none⟩
          ↔ (resp.StatusCode = 200 ∨ resp.StatusCode = 204))
        ∧ (¬ (resp.StatusCode = 200 ∨ resp.StatusCode = 204) →
            saveConfigRunE w fs args
              = ⟨[⟨"POST", "/api/v1/system/config/save", none⟩], [],
                  .returned (parseAPIError w resp)⟩))
    ∧ saveConfigCmd.execute (sampleWorld ⟨204, ⟨"", none⟩⟩) [] []
        = ⟨[⟨"POST", "/api/v1/system/config/save", none⟩],
            ["Configuration saved successfully\n"], .returned none⟩ := by
  refine ⟨saveConfig_calls w fs args, ?_, by decide⟩
  intro resp hresp
  unfold saveConfigRunE
  rw [callUnixRequest_ok _ _ _ _ resp hresp]
  by_cases hs : resp.StatusCode = 200 ∨ resp.StatusCode = 204
  · have hc : ¬ (resp.StatusCode ≠ 200 ∧ resp.StatusCode ≠ 204) := by
      rintro ⟨h1, h2⟩
      rcases hs with h | h
      · exact h1 h
      · exact h2 h
    rw [if_neg hc]
    exact ⟨⟨fun _ => hs, fun _ => rfl⟩, fun h => absurd hs h⟩
  · have hc : resp.StatusCode ≠ 200 ∧ resp.StatusCode ≠ 204 :=
      ⟨fun h => hs (Or.inl h), fun h => hs (Or.inr h)⟩
    rw [if_pos hc]
    refine ⟨⟨fun h => ?_, fun h => absurd h hs⟩, fun _ => rfl⟩
    have hout := congrArg Outcome.stdout h
    exact absurd hout.symm (List.cons_ne_nil _ _)

/-! ## Absent and empty containers -/

/-- Claim C9. For each list operation and every 200 response whose decoded container is
absent or empty, the run is its transport call, the `No ... found` line and a nil
error: no decode error, no daemon-reported error, no item line. -/
theorem list_of_nothing (w : World) (fs : FlagSet) (args : List String)
    (call : TransportCall) (resp : Response) (hresp : call.perform w = .ok resp)
    (h200 : resp.StatusCode = 200) :
    (∀ groupsRes, call ∈ (listgroupRunE w fs args).calls →
        w.decodeGroupsRes resp.Body = .ok groupsRes →
        groupsRes.Groups = none ∨ groupsRes.Groups = some [] →
        listgroupRunE w fs args = ⟨[call], ["No groups found.\n"], .returned none⟩)
    ∧ (∀ rulesRes, call ∈ (listRulesRunE w fs args).calls →
        w.decodeRulesRes resp.Body = .ok rulesRes →
        rulesRes.Rules = none ∨ rulesRes.Rules = some [] →
        listRulesRunE w fs args
          = ⟨[call], ["No rules found for this group.\n"], .returned none⟩)
    ∧ (∀ ifaces, call ∈ (interfacesRunE w fs args).calls →
        w.decodeInterfacesRes resp.Body = .ok ifaces →
        ifaces.Interfaces = [] →
        interfacesRunE w fs args = ⟨[call], ["No interfaces found.\n"], .returned none⟩) := by
  refine ⟨?_, ?_, ?_⟩
  · intro groupsRes hcall hdec hempty
    rw [listgroup_calls, List.mem_singleton] at hcall
    subst hcall
    unfold listgroupRunE
    rw [callUnixRequest_ok _ _ _ _ resp hresp]
    simp only [h200, ne_eq, not_true_eq_false, if_false, hdec]
    rcases hempty with h | h <;> rw [h] <;> rfl
  · intro rulesRes hcall hdec hempty
    cases args with
    | nil => exact absurd hcall (List.not_mem_nil _)
    | cons g rest =>
      rw [listRules_calls, List.mem_singleton] at hcall
      subst hcall
      unfold listRulesRunE
      simp only
      rw [callUnixRequest_ok _ _ _ _ resp hresp]
      simp only [h200, ne_eq, not_true_eq_false, if_false, hdec]
      rcases hempty with h | h <;> rw [h] <;> rfl
  · intro ifaces hcall hdec hempty
    rw [interfaces_calls, List.mem_singleton] at hcall
    subst hcall
    unfold interfacesRunE
    rw [callUnixRequest_ok _ _ _ _ resp hresp]
    simp only [h200, ne_eq, not_true_eq_false, if_false, hdec, hempty, List.length_nil,
      if_true]
    rfl

/-- Witness of C9: the three list commands on a 200 response with body `{}`. -/
theorem list_of_nothing_witness :
    listgroupRunE (sampleWorld ⟨200, ⟨"\x7b\x7d", none⟩⟩) [] []
      = ⟨[⟨"GET", "/api/v1/groups", none⟩], ["No groups found.\n"], .returned none⟩
    ∧ listRulesRunE (sampleWorld ⟨200, ⟨"\x7b\"rules\":[]\x7d", none⟩⟩) [] ["g1"]
      = ⟨[⟨"GET", "/api/v1/groups/g1/rules", none⟩], ["No rules found for this group.\n"],
          .returned none⟩
    ∧ interfacesRunE (sampleWorld ⟨200, ⟨"\x7b\x7d", none⟩⟩) [] []
      = ⟨[⟨"GET", "/api/v1/system/interfaces", none⟩], ["No interfaces found.\n"],
          .returned none⟩ :=
  ⟨(list_of_nothing (sampleWorld ⟨200, ⟨"\x7b\x7d", none⟩⟩) [] []
      ⟨"GET", "/api/v1/groups", none⟩ ⟨200, ⟨"\x7b\x7d", none⟩⟩ rfl rfl).1
      ⟨none⟩ (by decide) rfl (Or.inl rfl),
    (list_of_nothing (sampleWorld ⟨200, ⟨"\x7b\"rules\":[]\x7d", none⟩⟩) [] ["g1"]
      ⟨"GET", "/api/v1/groups/g1/rules", none⟩ ⟨200, ⟨"\x7b\"rules\":[]\x7d", none⟩⟩
      rfl rfl).2.1 ⟨some []⟩ (by decide) rfl (Or.inr rfl),
    (list_of_nothing (sampleWorld ⟨200, ⟨"\x7b\x7d", none⟩⟩) [] []
      ⟨"GET", "/api/v1/system/interfaces", none⟩ ⟨200, ⟨"\x7b\x7d", none⟩⟩ rfl rfl).2.2
      ⟨[]⟩ (by decide) rfl rfl⟩

/-- Claim C10. `rule replace` on a 200 response whose decoded rules container is absent:
the run prints the success header and then panics on the nil dereference, where
`rule list` on the same response reports that there are no rules. -/
theorem replaceRules_absent_container_panics :
    (∀ (w : World) (fs : FlagSet) (g : String) (rest : List String) (content : String)
        (rulesReq : RulesReq) (resp : Response),
        fs.GetString "file" ≠ "" →
        w.readFile (fs.GetString "file") = .ok content →
        w.unmarshalRulesReq content = .ok rulesReq →
        doUnixJSON w "PUT" (withSave ("/api/v1/groups/" ++ g ++ "/rules") (fs.GetBool "save"))
          (some (.rulesReq rulesReq)) = .ok resp →
        resp.StatusCode = 200 →
        w.decodeRulesRes resp.Body = .ok ⟨none⟩ →
        replaceRulesRunE w fs (g :: rest)
          = ⟨[⟨"PUT", withSave ("/api/v1/groups/" ++ g ++ "/rules") (fs.GetBool "save"),
                some (.rulesReq rulesReq)⟩],
              ["Rules replaced successfully. Current rules:\n"],
              .panicked "invalid memory address or nil pointer dereference"⟩)
    ∧ replaceRulesCmd.execute (sampleWorld ⟨200, ⟨"\x7b\x7d", none⟩⟩)
          [("file", "rules.json")] ["g1"]
        = ⟨[⟨"PUT", "/api/v1/groups/g1/rules", some (.rulesReq ⟨[]⟩)⟩],
            ["Rules replaced successfully. Current rules:\n"],
            .panicked "invalid memory address or nil pointer dereference"⟩
    ∧ listRulesCmd.execute (sampleWorld ⟨200, ⟨"\x7b\x7d", none⟩⟩) [] ["g1"]
        = ⟨[⟨"GET", "/api/v1/groups/g1/rules", none⟩], ["No rules found for this group.\n"],
            .returned none⟩ := by
  refine ⟨?_, by decide, by decide⟩
  intro w fs g rest content rulesReq resp hfile hread hparse hresp h200 hdec
  unfold replaceRulesRunE
  simp only [hfile, if_false, hread, hparse]
  rw [callUnixJSON_ok _ _ _ _ _ resp hresp]
  simp only [h200, ne_eq, not_true_eq_false, if_false, hdec]

/-! ## Local usage failures -/

/-- Claim C11. Local usage failures make no transport call and return an error: `group
update` and `group delete` run with an empty argument list, whatever the flags on the
command line, and `rule replace` when the file flag is empty, when the file cannot be
read, and when its content does not parse as a rules request. -/
theorem local_failures_make_no_call (w : World) :
    (∀ settings, (updateGroupCmd.execute w settings []).calls = []
        ∧ ∃ msg, (updateGroupCmd.execute w settings []).exit = .returned (some msg))
    ∧ (∀ settings, (deleteGroupCmd.execute w settings []).calls = []
        ∧ ∃ msg, (deleteGroupCmd.execute w settings []).exit = .returned (some msg))
    ∧ (∀ (fs : FlagSet) (g : String) (rest : List String), fs.GetString "file" = "" →
        (replaceRulesRunE w fs (g :: rest)).calls = []
        ∧ ∃ msg, (replaceRulesRunE w fs (g :: rest)).exit = .returned (some msg))
    ∧ (∀ (fs : FlagSet) (g : String) (rest : List String) (e : String),
        w.readFile (fs.GetString "file") = .error e →
        (replaceRulesRunE w fs (g :: rest)).calls = []
        ∧ ∃ msg, (replaceRulesRunE w fs (g :: rest)).exit = .returned (some msg))
    ∧ (∀ (fs : FlagSet) (g : String) (rest : List String) (content e : String),
        w.readFile (fs.GetString "file") = .ok content →
        w.unmarshalRulesReq content = .error e →
        (replaceRulesRunE w fs (g :: rest)).calls = []
        ∧ ∃ msg, (replaceRulesRunE w fs (g :: rest)).exit = .returned (some msg))
    ∧ (replaceRulesCmd.execute w [] ["g1"]).calls = []
    ∧ (replaceRulesCmd.execute (sampleWorld ⟨200, ⟨"", none⟩⟩) [("file", "absent.json")]
        ["g1"]) = ⟨[], [], .returned (some "failed to read file absent.json: no such file")⟩ := by
  refine ⟨?_, ?_, ?_, ?_, ?_, rfl, by decide⟩
  · intro settings
    unfold Command.execute
    cases updateGroupCmd.Flags.parse settings with
    | error err => exact ⟨rfl, _, rfl⟩
    | ok fs => exact ⟨rfl, _, rfl⟩
  · intro settings
    unfold Command.execute
    cases deleteGroupCmd.Flags.parse settings with
    | error err => exact ⟨rfl, _, rfl⟩
    | ok fs => exact ⟨rfl, _, rfl⟩
  · intro fs g rest hfile
    unfold replaceRulesRunE
    simp only [hfile, if_true]
    exact ⟨rfl, _, rfl⟩
  · intro fs g rest e hread
    unfold replaceRulesRunE
    by_cases hfile : fs.GetString "file" = ""
    · simp only [hfile, if_true]
      exact ⟨rfl, _, rfl⟩
    · simp only [hfile, if_false, hread]
      exact ⟨rfl, _, rfl⟩
  · intro fs g rest content e hread hparse
    unfold replaceRulesRunE
    by_cases hfile : fs.GetString "file" = ""
    · simp only [hfile, if_true]
      exact ⟨rfl, _, rfl⟩
    · simp only [hfile, if_false, hread, hparse]
      exact ⟨rfl, _, rfl⟩

/-! ## Flags after parsing -/

theorem assign_cons (k : String) (x : FlagVal) (tl : FlagSet) (name : String) (v : FlagVal) :
    FlagSet.assign ((k, x) :: tl) name v
      = (if k = name then (name, v) else (k, x)) :: FlagSet.assign tl name v := rfl

theorem lastGiven_cons (k v : String) (rest : List (String × String)) (n : String) :
    lastGiven ((k, v) :: rest) n
      = match lastGiven rest n with
        | some x => some x
        | none => if k = n then some v else none := rfl

theorem lookup_assign (fs : FlagSet) (name n : String) (v : FlagVal) :
    List.lookup n (fs.assign name v)
      = if n = name then (List.lookup n fs).map (fun _ => v) else List.lookup n fs := by
  induction fs with
  | nil => simp [FlagSet.assign]
  | cons p tl ih =>
    obtain ⟨k, x⟩ := p
    rw [assign_cons]
    by_cases hk : k = name
    · rw [if_pos hk]
      by_cases hn : n = name
      · subst hk hn
        simp [List.lookup_cons]
      · subst hk
        have hb : (n == k) = false := by simp [hn]
        rw [List.lookup_cons, List.lookup_cons, hb, ih]
    · rw [if_neg hk]
      by_cases hnk : n = k
      · subst hnk
        simp [List.lookup_cons, hk]
      · have hb : (n == k) = false := by simp [hnk]
        rw [List.lookup_cons, List.lookup_cons, hb, ih]

theorem Set_lookup_other (fs fs1 : FlagSet) (name value n : String)
    (h : fs.Set name value = .ok fs1) (hn : n ≠ name) :
    List.lookup n fs1 = List.lookup n fs := by
  unfold FlagSet.Set at h
  split at h
  · cases h
  · cases h
    rw [lookup_assign, if_neg hn]
  · split at h
    · cases h
      rw [lookup_assign, if_neg hn]
    · cases h

theorem Set_lookup_str (fs fs1 : FlagSet) (name value d : String)
    (h : fs.Set name value = .ok fs1) (hd : List.lookup name fs = some (.str d)) :
    List.lookup name fs1 = some (.str value) := by
  unfold FlagSet.Set at h
  rw [hd] at h
  cases h
  rw [lookup_assign, if_pos rfl, hd]
  rfl

theorem Set_lookup_bool (fs fs1 : FlagSet) (name value : String) (d : Bool)
    (h : fs.Set name value = .ok fs1) (hd : List.lookup name fs = some (.bool d)) :
    ∃ b, ParseBool value = some b ∧ List.lookup name fs1 = some (.bool b) := by
  unfold FlagSet.Set at h
  rw [hd] at h
  cases hp : ParseBool value with
  | none => rw [hp] at h; cases h
  | some b =>
    rw [hp] at h
    cases h
    refine ⟨b, rfl, ?_⟩
    rw [lookup_assign, if_pos rfl, hd]
    rfl

theorem parse_lookup_str (settings : List (String × String)) :
    ∀ (fs0 fs : FlagSet) (n d : String), FlagSet.parse fs0 settings = .ok fs →
      List.lookup n fs0 = some (.str d) →
      List.lookup n fs = some (.str ((lastGiven settings n).getD d)) := by
  induction settings with
  | nil =>
    intro fs0 fs n d h hd
    cases h
    exact hd
  | cons p rest ih =>
    obtain ⟨k, v⟩ := p
    intro fs0 fs n d h hd
    unfold FlagSet.parse at h
    cases hset : fs0.Set k v with
    | error e => rw [hset] at h; cases h
    | ok fs1 =>
      rw [hset] at h
      by_cases hnk : n = k
      · subst hnk
        have h1 := Set_lookup_str fs0 fs1 n v d hset hd
        rw [ih fs1 fs n v h h1, lastGiven_cons]
        cases lastGiven rest n <;> simp
      · have h1 : List.lookup n fs1 = some (.str d) := by
          rw [Set_lookup_other fs0 fs1 k v n hset hnk]; exact hd
        rw [ih fs1 fs n d h h1, lastGiven_cons]
        have hkn : ¬ k = n := fun e => hnk e.symm
        cases lastGiven rest n <;> simp [hkn]

theorem parse_lookup_bool (settings : List (String × String)) :
    ∀ (fs0 fs : FlagSet) (n : String) (d : Bool), FlagSet.parse fs0 settings = .ok fs →
      List.lookup n fs0 = some (.bool d) →
      ∃ b, List.lookup n fs = some (.bool b)
        ∧ (match lastGiven settings n with
            | none => b = d
            | some v => ParseBool v = some b) := by
  induction settings with
  | nil =>
    intro fs0 fs n d h hd
    cases h
    exact ⟨d, hd, rfl⟩
  | cons p rest ih =>
    obtain ⟨k, v⟩ := p
    intro fs0 fs n d h hd
    unfold FlagSet.parse at h
    cases hset : fs0.Set k v with
    | error e => rw [hset] at h; cases h
    | ok fs1 =>
      rw [hset] at h
      by_cases hnk : n = k
      · subst hnk
        obtain ⟨b1, hp, h1⟩ := Set_lookup_bool fs0 fs1 n v d hset hd
        obtain ⟨b, hb, hlast⟩ := ih fs1 fs n b1 h h1
        refine ⟨b, hb, ?_⟩
        rw [lastGiven_cons]
        cases hl : lastGiven rest n with
        | none =>
          rw [hl] at hlast
          simp only [if_true]
          rw [hlast]; exact hp
        | some x =>
          rw [hl] at hlast
          exact hlast
      · have h1 : List.lookup n fs1 = some (.bool d) := by
          rw [Set_lookup_other fs0 fs1 k v n hset hnk]; exact hd
        obtain ⟨b, hb, hlast⟩ := ih fs1 fs n d h h1
        refine ⟨b, hb, ?_⟩
        rw [lastGiven_cons]
        have hkn : ¬ k = n := fun e => hnk e.symm
        cases hl : lastGiven rest n with
        | none =>
          rw [hl] at hlast
          simp only [hkn, if_false]
          exact hlast
        | some x =>
          rw [hl] at hlast
          exact hlast

theorem GetString_of_lookup (fs : FlagSet) (n s : String)
    (h : List.lookup n fs = some (.str s)) : fs.GetString n = s := by
  unfold FlagSet.GetString
  rw [h]

theorem GetBool_of_lookup (fs : FlagSet) (n : String) (b : Bool)
    (h : List.lookup n fs = some (.bool b)) : fs.GetBool n = b := by
  unfold FlagSet.GetBool
  rw [h]

theorem execute_of_parse (c : Command) (w : World) (settings : List (String × String))
    (args : List String) (fs : FlagSet) (hparse : c.Flags.parse settings = .ok fs)
    (hargs : c.Args.check args = none) : c.execute w settings args = c.RunE w fs args := by
  unfold Command.execute
  rw [hparse]
  simp only [hargs]

/-- Claim C12. `group update` and `rule update` send every field of the request on every
run that reaches the transport: each text field carries the value last given on the
command line, the empty string when its flag is not given, and `enable` is always a
concrete boolean, true when the flag is not given and the value read from the flag
when it is. -/
theorem update_sends_every_field (w : World) (settings : List (String × String))
    (g r : String) (rest : List String) :
    (∀ fs, updateGroupCmd.Flags.parse settings = .ok fs →
      ∃ enable : Bool,
        (updateGroupCmd.execute w settings (g :: rest)).calls
          = [⟨"PUT", withSave ("/api/v1/groups/" ++ g) (fs.GetBool "save"),
              some (.groupReq ⟨(lastGiven settings "name").getD "",
                (lastGiven settings "interface").getD "",
                (lastGiven settings "color").getD "", some enable⟩)⟩]
        ∧ (match lastGiven settings "enable" with
            | none => enable = true
            | some v => ParseBool v = some enable))
    ∧ (∀ fs, updateRuleCmd.Flags.parse settings = .ok fs →
      ∃ enable : Bool,
        (updateRuleCmd.execute w settings [g, r]).calls
          = [⟨"PUT", withSave ("/api/v1/groups/" ++ g ++ "/rules/" ++ r) (fs.GetBool "save"),
              some (.ruleReq ⟨(lastGiven settings "name").getD "",
                (lastGiven settings "type").getD "",
                (lastGiven settings "rule").getD "", enable⟩)⟩]
        ∧ (match lastGiven settings "enable" with
            | none => enable = true
            | some v => ParseBool v = some enable))
    ∧ (updateGroupCmd.execute w [("name", "Office")] ["g1"]).calls
        = [⟨"PUT", "/api/v1/groups/g1", some (.groupReq ⟨"Office", "", "", some true⟩)⟩]
    ∧ (updateRuleCmd.execute w [("enable", "false")] ["g1", "r1"]).calls
        = [⟨"PUT", "/api/v1/groups/g1/rules/r1", some (.ruleReq ⟨"", "", "", false⟩)⟩] := by
  refine ⟨?_, ?_, ?_, ?_⟩
  · intro fs hparse
    obtain ⟨enable, hb, hlast⟩ := parse_lookup_bool settings _ fs "enable" true hparse rfl
    refine ⟨enable, ?_, hlast⟩
    rw [execute_of_parse updateGroupCmd w settings (g :: rest) fs hparse rfl]
    show (updateGroupRunE w fs (g :: rest)).calls = _
    rw [updateGroup_calls,
      GetString_of_lookup fs "name" _ (parse_lookup_str settings _ fs "name" "" hparse rfl),
      GetString_of_lookup fs "interface" _
        (parse_lookup_str settings _ fs "interface" "" hparse rfl),
      GetString_of_lookup fs "color" _ (parse_lookup_str settings _ fs "color" "" hparse rfl),
      GetBool_of_lookup fs "enable" enable hb]
  · intro fs hparse
    obtain ⟨enable, hb, hlast⟩ := parse_lookup_bool settings _ fs "enable" true hparse rfl
    refine ⟨enable, ?_, hlast⟩
    rw [execute_of_parse updateRuleCmd w settings [g, r] fs hparse rfl]
    show (updateRuleRunE w fs [g, r]).calls = _
    rw [updateRule_calls,
      GetString_of_lookup fs "name" _ (parse_lookup_str settings _ fs "name" "" hparse rfl),
      GetString_of_lookup fs "type" _ (parse_lookup_str settings _ fs "type" "" hparse rfl),
      GetString_of_lookup fs "rule" _ (parse_lookup_str settings _ fs "rule" "" hparse rfl),
      GetBool_of_lookup fs "enable" enable hb]
  · exact updateGroup_calls w _ "g1" []
  · exact updateRule_calls w _ "g1" "r1" []

/-! ## Paths without escaping -/

theorem split_at_first (c : Char) :
    ∀ (l1 l2 t1 t2 : List Char), c ∉ l1 → c ∉ l2 → l1 ++ c :: t1 = l2 ++ c :: t2 →
      l1 = l2 ∧ t1 = t2 := by
  intro l1
  induction l1 with
  | nil =>
    intro l2 t1 t2 _ h2 h
    cases l2 with
    | nil => exact ⟨rfl, (List.cons.inj h).2⟩
    | cons b l2 =>
      have hb : c = b := (List.cons.inj h).1
      exact absurd (hb ▸ List.mem_cons_self c l2) h2
  | cons a l1 ih =>
    intro l2 t1 t2 h1 h2 h
    cases l2 with
    | nil =>
      have ha : a = c := (List.cons.inj h).1
      exact absurd (ha ▸ List.mem_cons_self a l1) h1
    | cons b l2 =>
      obtain ⟨hab, htl⟩ := List.cons.inj h
      have h1tl : c ∉ l1 := fun hm => h1 (List.mem_cons_of_mem _ hm)
      have h2tl : c ∉ l2 := fun hm => h2 (List.mem_cons_of_mem _ hm)
      obtain ⟨e1, e2⟩ := ih l2 t1 t2 h1tl h2tl htl
      exact ⟨by rw [hab, e1], e2⟩

theorem withSave_data (u : String) (b : Bool) :
    (withSave u b).data = u.data ++ (if b then '?' :: "save=true".data else []) := by
  cases b
  · simp [withSave]
  · simp only [withSave, if_true, data_append]

theorem id_save_inj (a1 a2 : List Char) (b1 b2 : Bool) (h1 : '?' ∉ a1) (h2 : '?' ∉ a2)
    (h : a1 ++ (if b1 then '?' :: "save=true".data else [])
      = a2 ++ (if b2 then '?' :: "save=true".data else [])) : a1 = a2 ∧ b1 = b2 := by
  cases b1 <;> cases b2
  · simp only [Bool.false_eq_true, if_false, List.append_nil] at h
    exact ⟨h, rfl⟩
  · simp only [Bool.false_eq_true, if_false, List.append_nil, if_true] at h
    exact absurd (h ▸ List.mem_append_right a2 (List.mem_cons_self _ _)) h1
  · simp only [Bool.false_eq_true, if_false, List.append_nil, if_true] at h
    exact absurd (h.symm ▸ List.mem_append_right a1 (List.mem_cons_self _ _)) h2
  · simp only [if_true] at h
    exact ⟨(split_at_first '?' a1 a2 _ _ h1 h2 h).1, rfl⟩

theorem groupPath_inj (g1 g2 : String) (b1 b2 : Bool) (h1 : plainID g1) (h2 : plainID g2)
    (h : withSave ("/api/v1/groups/" ++ g1) b1 = withSave ("/api/v1/groups/" ++ g2) b2) :
    g1 = g2 ∧ b1 = b2 := by
  have hd := congrArg String.data h
  rw [withSave_data, withSave_data, data_append, data_append, List.append_assoc,
    List.append_assoc] at hd
  have hd2 := List.append_cancel_left hd
  obtain ⟨e, eb⟩ := id_save_inj _ _ b1 b2 h1.1 h2.1 hd2
  exact ⟨String.ext e, eb⟩

theorem rulePath_inj (g1 r1 g2 r2 : String) (b1 b2 : Bool) (hg1 : plainID g1)
    (hr1 : plainID r1) (hg2 : plainID g2) (hr2 : plainID r2)
    (h : withSave ("/api/v1/groups/" ++ g1 ++ "/rules/" ++ r1) b1
      = withSave ("/api/v1/groups/" ++ g2 ++ "/rules/" ++ r2) b2) :
    g1 = g2 ∧ r1 = r2 ∧ b1 = b2 := by
  have hd := congrArg String.data h
  simp only [withSave_data, data_append, List.append_assoc] at hd
  have hd2 := List.append_cancel_left hd
  simp only [List.cons_append, List.nil_append] at hd2
  obtain ⟨eg, etl⟩ := split_at_first '/' _ _ _ _ hg1.2 hg2.2 hd2
  simp only [List.cons.injEq, true_and] at etl
  obtain ⟨er, eb⟩ := id_save_inj _ _ b1 b2 hr1.1 hr2.1 etl
  exact ⟨String.ext eg, String.ext er, eb⟩

/-- Claim C13. Paths are built without escaping, so a path does not determine the
identifier and the save flag: `group delete` of `g1?save=true` without the save flag
and of `g1` with it make the same call, on a path that ends in `?save=true`, and so do
`rule delete` of `g1`, `r1?save=true` without the flag and of `g1`, `r1` with it.  For
identifiers that contain neither `?` nor `/`, two runs that make the same call have
the same identifiers and the same save flag. -/
theorem path_collision_and_injectivity (w : World) :
    ((deleteGroupCmd.execute w [] ["g1?save=true"]).calls
        = [⟨"DELETE", "/api/v1/groups/g1?save=true", none⟩]
      ∧ (deleteGroupCmd.execute w [("save", "true")] ["g1"]).calls
        = [⟨"DELETE", "/api/v1/groups/g1?save=true", none⟩])
    ∧ ((deleteRuleCmd.execute w [] ["g1", "r1?save=true"]).calls
        = [⟨"DELETE", "/api/v1/groups/g1/rules/r1?save=true", none⟩]
      ∧ (deleteRuleCmd.execute w [("save", "true")] ["g1", "r1"]).calls
        = [⟨"DELETE", "/api/v1/groups/g1/rules/r1?save=true", none⟩])
    ∧ (∀ (fs1 fs2 : FlagSet) (g1 g2 : String) (rest1 rest2 : List String),
        plainID g1 → plainID g2 →
        (deleteGroupRunE w fs1 (g1 :: rest1)).calls = (deleteGroupRunE w fs2 (g2 :: rest2)).calls →
        g1 = g2 ∧ fs1.GetBool "save" = fs2.GetBool "save")
    ∧ (∀ (fs1 fs2 : FlagSet) (g1 r1 g2 r2 : String),
        plainID g1 → plainID r1 → plainID g2 → plainID r2 →
        (deleteRuleRunE w fs1 [g1, r1]).calls = (deleteRuleRunE w fs2 [g2, r2]).calls →
        g1 = g2 ∧ r1 = r2 ∧ fs1.GetBool "save" = fs2.GetBool "save") := by
  refine ⟨⟨?_, ?_⟩, ⟨?_, ?_⟩, ?_, ?_⟩
  · exact deleteGroup_calls w _ "g1?save=true" []
  · exact deleteGroup_calls w _ "g1" []
  · exact deleteRule_calls w _ "g1" "r1?save=true" []
  · exact deleteRule_calls w _ "g1" "r1" []
  · intro fs1 fs2 g1 g2 rest1 rest2 h1 h2 h
    rw [deleteGroup_calls, deleteGroup_calls] at h
    have hp := congrArg TransportCall.urlPath (List.cons.inj h).1
    exact groupPath_inj g1 g2 _ _ h1 h2 hp
  · intro fs1 fs2 g1 r1 g2 r2 hg1 hr1 hg2 hr2 h
    rw [deleteRule_calls, deleteRule_calls] at h
    have hp := congrArg TransportCall.urlPath (List.cons.inj h).1
    exact rulePath_inj g1 r1 g2 r2 _ _ hg1 hr1 hg2 hr2 hp

end MagiTrickle
